import Mathlib

/-!
A verification development for the headless CI code-review orchestrator
`scripts/code-reviewer.sh`.  The script is shallowly embedded: its global
mutable state (the parallel result files, the CHECK_COUNT / TOTAL_ERRORS
counters, the errexit flag toggled by `run_check`, the stderr diagnostic
stream and the sequence of spawned subprocesses) becomes an explicit
`RunState` threaded through pure functions, and the outside world (which
directories/tools/package scripts exist, what each check command exits
with and prints, whether writing the report file succeeds) becomes a
`World` record of booleans and functions.  Early `exit` is modelled by
returning `RunState × Option Nat` where `some c` means the process has
terminated with code `c`.
-/

namespace CodeReviewer

/-- `--level quick|standard|full` (code-reviewer.sh lines 226-229). -/
inductive Level
  | quick
  | standard
  | full
deriving DecidableEq

/-- `--output text|json|junit` (lines 231-234). -/
inductive OutputFmt
  | text
  | json
  | junit
deriving DecidableEq

/-- `--target all|backend|frontend` (lines 236-239). -/
inductive Target
  | all
  | backend
  | frontend
deriving DecidableEq

/-- A check's recorded status: `passed` or `failed` (lines 344-348).
There is no third constructor, matching the store format. -/
inductive Status
  | passed
  | failed
deriving DecidableEq

/-- One line of `names.txt`/`statuses.txt`/`durations.txt`/`outputs.txt`
(`store_result`, lines 290-303).  `capturedOutput` is the content of the
output file referenced by `outputs.txt`: `none` for a passed check (the
empty reference stored at line 345), `some lines` for a failed one. -/
structure CheckResult where
  name : String
  status : Status
  durationMs : Nat
  capturedOutput : Option (List String)
deriving DecidableEq

/-- The validated configuration produced by `parse_args` from defaults,
environment variables and flags (lines 44-51 and 182-240). -/
structure Config where
  level : Level
  output : OutputFmt
  target : Target
  failFast : Bool
  noColor : Bool
  verbose : Bool
  outputFile : Option String
deriving DecidableEq

/-- The environment the script runs against.  Booleans are the outcomes of
the `[[ -d ]]` / `[[ -x ]]` / `command -v` / `grep -q` probes; a tool
availability flag collapses the venv-then-system fallback chain of lines
385-413 (only emptiness of the resolved command matters).  `checkExit`
and `checkOutput` give each named check's subprocess exit code and
combined captured stdout+stderr lines; `rawDuration k` is the raw clock
difference measured around the `k`-th executed check (may be negative on
skewed clocks, line 340); `writeOk` tells whether `echo > OUTPUT_FILE`
at line 700 succeeds. -/
structure World where
  backendDir : Bool
  frontendDir : Bool
  python3 : Bool
  node : Bool
  npm : Bool
  black : Bool
  isort : Bool
  flake8 : Bool
  mypy : Bool
  pytest : Bool
  testsDir : Bool
  packageJson : Bool
  lintScript : Bool
  typeCheckScript : Bool
  testScript : Bool
  buildScript : Bool
  nodeModules : Bool
  checkExit : String → Nat
  checkOutput : String → List String
  rawDuration : Nat → Int
  writeOk : Bool

/-- Externally visible side effects: spawning `npm install` (line 478) and
running a check's command (line 332). -/
inductive Event
  | npmInstall
  | runCmd (name : String)
deriving DecidableEq

/-- The orchestrator's mutable state: the result store, the two counters,
the errexit shell option (off at `set -uo pipefail`, line 35; switched on
by the `set -e` at line 334 of `run_check`), the stderr diagnostic
stream, the subprocess trace, and the report once a renderer ran. -/
structure TextReport where
  passed : Nat
  failed : Nat
deriving DecidableEq

/-- One element of the JSON `checks` array (lines 613-619). -/
structure JsonCheck where
  name : String
  status : Status
  duration_ms : Nat
  output : String
deriving DecidableEq

/-- The JSON report object (lines 624-638). -/
structure JsonReport where
  level : Level
  target : Target
  total : Nat
  passed : Nat
  failed : Nat
  checks : List JsonCheck
deriving DecidableEq

/-- One `testcase` element (lines 665-673): `failure` is the body of the
nested `failure` element, absent when no such element is emitted. -/
structure JunitCase where
  name : String
  timeMs : Nat
  failure : Option String
deriving DecidableEq

/-- The JUnit document (lines 646-681): attributes of `testsuites`, of the
single `testsuite`, and the `testcase` list. -/
structure JunitReport where
  tests : Nat
  failures : Nat
  suiteTests : Nat
  suiteFailures : Nat
  cases : List JunitCase
deriving DecidableEq

/-- The report produced by exactly one renderer per run (lines 684-697). -/
inductive Rendered
  | text (t : TextReport)
  | json (j : JsonReport)
  | junit (x : JunitReport)
deriving DecidableEq

structure RunState where
  results : List CheckResult
  checkCount : Nat
  totalErrors : Nat
  errexit : Bool
  diag : List String
  trace : List Event
  rendered : Option Rendered
deriving DecidableEq

/-- State at `main` entry after `setup_temp` (lines 56-64, 723-727). -/
def initState : RunState :=
  { results := [], checkCount := 0, totalErrors := 0, errexit := false,
    diag := [], trace := [], rendered := none }

/-- The per-character effect of the sed pipeline at line 669
(`s/&/\&amp;/g; s/</\&lt;/g; s/>/\&gt;/g; s/"/\&quot;/g`): because `&` is
replaced first and no later replacement's output contains a later
pattern, the chain acts as this simultaneous character substitution. -/
def escapeChar (c : Char) : List Char :=
  if c = '&' then ['&', 'a', 'm', 'p', ';']
  else if c = '<' then ['&', 'l', 't', ';']
  else if c = '>' then ['&', 'g', 't', ';']
  else if c = '"' then ['&', 'q', 'u', 'o', 't', ';']
  else [c]

/-- Entity-escape one line of captured output (line 669). -/
def sedEscapeLine (s : String) : String :=
  String.mk (s.data.map escapeChar).flatten

/-- `output_text` (lines 517-575), reduced to the data the claims consult:
the `passed`/`failed` tallies of its rendering loop (lines 528-547). -/
def output_text (results : List CheckResult) : TextReport :=
  { passed := (results.filter (fun r => decide (r.status = Status.passed))).length,
    failed := (results.filter (fun r => decide (r.status = Status.failed))).length }

/-- The `output` field of a JSON check entry (lines 601-605): the captured
text for a failed check, the empty string otherwise. -/
def jsonOutputField (r : CheckResult) : String :=
  match r.capturedOutput with
  | some ls => String.intercalate "\n" ls
  | none => ""

/-- `output_json` (lines 577-639): `total` comes from the global
`CHECK_COUNT`; `passed`/`failed` are tallied by the loop over
`names.txt`; `checks` is the ordered entry list. -/
def output_json (cfg : Config) (results : List CheckResult) (checkCount : Nat) :
    JsonReport :=
  { level := cfg.level, target := cfg.target,
    total := checkCount,
    passed := (results.filter (fun r => decide (r.status = Status.passed))).length,
    failed := (results.filter (fun r => decide (r.status = Status.failed))).length,
    checks := results.map (fun r =>
      { name := r.name, status := r.status, duration_ms := r.durationMs,
        output := jsonOutputField r }) }

/-- The nested `failure` element body for one testcase (lines 667-671):
present exactly when the status is `failed` and an output file reference
was stored; its body is the first 50 lines, entity-escaped. -/
def junitCaseOf (r : CheckResult) : JunitCase :=
  { name := r.name, timeMs := r.durationMs,
    failure :=
      match r.status, r.capturedOutput with
      | Status.failed, some ls =>
          some (String.intercalate "\n" ((ls.take 50).map sedEscapeLine))
      | _, _ => none }

/-- `output_junit` (lines 641-682): `tests` is `CHECK_COUNT` and
`failures` is `TOTAL_ERRORS`, on both `testsuites` and `testsuite`. -/
def output_junit (results : List CheckResult) (checkCount totalErrors : Nat) :
    JunitReport :=
  { tests := checkCount, failures := totalErrors,
    suiteTests := checkCount, suiteFailures := totalErrors,
    cases := results.map junitCaseOf }

/-- Renderer dispatch of `output_results` (lines 687-697). -/
def render (cfg : Config) (st : RunState) : Rendered :=
  match cfg.output with
  | OutputFmt.text => Rendered.text (output_text st.results)
  | OutputFmt.json => Rendered.json (output_json cfg st.results st.checkCount)
  | OutputFmt.junit => Rendered.junit (output_junit st.results st.checkCount st.totalErrors)

/-- `output_results` (lines 684-705).  The report is rendered, then
written: to stdout when no output file is set, else to the file.  A
failed file write (`echo ... > "${OUTPUT_FILE}"`, line 700) aborts the
process with the failing command's status 1 when errexit is active
(it is switched on by the first `run_check`); without errexit the
failure is ignored and `log_info` still prints the confirmation. -/
def output_results (cfg : Config) (w : World) (st : RunState) :
    RunState × Option Nat :=
  match cfg.outputFile with
  | none => ({ st with rendered := some (render cfg st) }, none)
  | some f =>
    if w.writeOk = false ∧ st.errexit = true then
      ({ st with rendered := some (render cfg st) }, some 1)
    else
      ({ st with
         rendered := some (render cfg st),
         diag := st.diag ++
           (if cfg.output = OutputFmt.text then ["Results written to: " ++ f] else []) },
       none)

/-- The `CheckResult` that running check `name` as the `k`-th check
appends to the store (lines 344-349): status from the exit code, duration
clamped at zero (`Int.toNat` performs the line 340-342 clamp), output
retained only on failure. -/
def mkResult (w : World) (k : Nat) (name : String) : CheckResult :=
  if w.checkExit name = 0 then
    { name := name, status := Status.passed,
      durationMs := (w.rawDuration k).toNat, capturedOutput := none }
  else
    { name := name, status := Status.failed,
      durationMs := (w.rawDuration k).toNat,
      capturedOutput := some (w.checkOutput name) }

/-- The state mutations of `run_check` (lines 313-354), fail-fast exit
excluded: the `log_verbose` echo of the command, the subprocess spawn,
the `store_result` append with counter updates, the `set -e` at line 334
switching errexit on, the `log_success`/`log_error` tags, and on failure
with `verbose` the `head -50` of captured output to stderr (line 353).
`red` records whether this `run_check` call site redirected the
function's stderr to `/dev/null` (as the frontend eslint/type-check/jest
invocations at lines 485, 493 and 501 do), which discards every
diagnostic line the call would emit.  All `log_*` helpers print only
when the output format is `text` (lines 93-121).  `runCheckDiag` collects,
in emission order, the stderr lines of one `run_check` invocation;
`applyCheck` applies every state mutation at once. -/
def runCheckDiag (cfg : Config) (w : World) (red : Bool) (name : String) :
    List String :=
  let canDiag := !red && decide (cfg.output = OutputFmt.text)
  (if cfg.verbose && canDiag then ["Running: " ++ name] else [])
  ++ (if w.checkExit name = 0 then
        (if canDiag then ["[PASS] " ++ name] else [])
      else
        (if canDiag then ["[FAIL] " ++ name] else [])
        ++ (if cfg.verbose && canDiag then (w.checkOutput name).take 50 else []))

def applyCheck (cfg : Config) (w : World) (red : Bool) (name : String)
    (st : RunState) : RunState :=
  { st with
    results := st.results ++ [mkResult w st.checkCount name],
    checkCount := st.checkCount + 1,
    totalErrors := st.totalErrors + (if w.checkExit name = 0 then 0 else 1),
    errexit := true,
    diag := st.diag ++ runCheckDiag cfg w red name,
    trace := st.trace ++ [Event.runCmd name] }

/-- An already-exited computation passes through; otherwise the process
would `exit 1` at line 358 - should `output_results` itself have aborted
at the failed report write under errexit, that exit code stands. -/
def failFastExit (x : RunState × Option Nat) : RunState × Option Nat :=
  match x with
  | (st2, some c) => (st2, some c)
  | (st2, none) => (st2, some 1)

/-- Sequencing: run the continuation unless the first part exited. -/
def step (x : RunState × Option Nat) (g : RunState → RunState × Option Nat) :
    RunState × Option Nat :=
  match x with
  | (st1, none) => g st1
  | (st1, some c) => (st1, some c)

/-- `run_check` (lines 313-361): perform the check; on failure with
`FAIL_FAST=1`, render the partial store and terminate with exit code 1
(lines 356-359). -/
def run_check (cfg : Config) (w : World) (red : Bool) (name : String)
    (st : RunState) : RunState × Option Nat :=
  if w.checkExit name ≠ 0 ∧ cfg.failFast = true then
    failFastExit (output_results cfg w (applyCheck cfg w red name st))
  else (applyCheck cfg w red name st, none)

/-- One gated check slot of `run_backend_checks`/`run_frontend_checks`:
`gate` is the surrounding `if` condition, `warnOnSkip` whether the `else`
branch logs a "not installed - skipping" warning, `redirected` whether
the `run_check` call site sends stderr to `/dev/null`. -/
structure Blk where
  gate : Bool
  name : String
  redirected : Bool
  warnOnSkip : Bool

/-- Execute one slot: `run_check` when the gate holds, else at most a
`log_warning` (text-only, lines 111-115). -/
def runBlk (cfg : Config) (w : World) (b : Blk) (st : RunState) :
    RunState × Option Nat :=
  if b.gate then run_check cfg w b.redirected b.name st
  else
    (if b.warnOnSkip && decide (cfg.output = OutputFmt.text)
     then { st with diag := st.diag ++ ["warning: skipping " ++ b.name] }
     else st, none)

/-- Run slots in order, propagating an early process exit. -/
def runBlks (cfg : Config) (w : World) : List Blk → RunState → RunState × Option Nat
  | [], st => (st, none)
  | b :: bs, st => step (runBlk cfg w b st) (runBlks cfg w bs)

/-- Lines 418-423: black, gated only on tool availability (every level). -/
def blackBlk (w : World) : Blk :=
  { gate := w.black, name := "backend_black", redirected := false, warnOnSkip := true }

/-- Lines 425-430: isort, gated only on tool availability (every level). -/
def isortBlk (w : World) : Blk :=
  { gate := w.isort, name := "backend_isort",
    redirected := false, warnOnSkip := true }

/-- Lines 434-439: flake8 (standard and full only). -/
def flake8Blk (w : World) : Blk :=
  { gate := w.flake8, name := "backend_flake8", redirected := false, warnOnSkip := true }

/-- Lines 441-446: mypy (standard and full only). -/
def mypyBlk (w : World) : Blk :=
  { gate := w.mypy, name := "backend_mypy", redirected := false, warnOnSkip := true }

/-- Lines 450-457: pytest at full level, run only when a `tests` directory
exists and pytest is available; warned about when the directory exists
but the tool does not. -/
def pytestBlk (w : World) : Blk :=
  { gate := w.testsDir && w.pytest, name := "backend_pytest",
    redirected := false, warnOnSkip := w.testsDir }

/-- Lines 482-487: eslint via the package `lint` script, when
`package.json` exists and mentions `"lint"` (every level); the call site
redirects `run_check` stderr to `/dev/null`. -/
def eslintBlk (w : World) : Blk :=
  { gate := w.packageJson && w.lintScript, name := "frontend_eslint",
    redirected := true, warnOnSkip := false }

/-- Lines 490-495: the `type-check` script (standard and full only);
`grep -q ... 2>/dev/null` fails when `package.json` is absent. -/
def typecheckBlk (w : World) : Blk :=
  { gate := w.packageJson && w.typeCheckScript, name := "frontend_typecheck",
    redirected := true, warnOnSkip := false }

/-- Lines 499-502: the `test` script at full level. -/
def jestBlk (w : World) : Blk :=
  { gate := w.packageJson && w.testScript, name := "frontend_jest",
    redirected := true, warnOnSkip := false }

/-- Lines 504-507: the `build` script at full level (no redirection). -/
def buildBlk (w : World) : Blk :=
  { gate := w.packageJson && w.buildScript, name := "frontend_build",
    redirected := false, warnOnSkip := false }

/-- The ordered backend catalogue as gated by `LEVEL` (lines 417-457). -/
def backendBlks (l : Level) (w : World) : List Blk :=
  [blackBlk w, isortBlk w]
  ++ (if l = Level.standard ∨ l = Level.full then [flake8Blk w, mypyBlk w] else [])
  ++ (if l = Level.full then [pytestBlk w] else [])

/-- The ordered frontend catalogue as gated by `LEVEL` (lines 481-508). -/
def frontendBlks (l : Level) (w : World) : List Blk :=
  [eslintBlk w]
  ++ (if l = Level.standard ∨ l = Level.full then [typecheckBlk w] else [])
  ++ (if l = Level.full then [jestBlk w, buildBlk w] else [])

/-- `run_backend_checks` (lines 367-460): warn and return when the
backend directory is missing, else run the gated catalogue. -/
def run_backend_checks (cfg : Config) (w : World) (st : RunState) :
    RunState × Option Nat :=
  if w.backendDir then runBlks cfg w (backendBlks cfg.level w) st
  else
    ({ st with diag := st.diag ++
        (if cfg.output = OutputFmt.text then ["warning: backend directory not found"] else []) },
     none)

/-- Lines 476-479: when `node_modules` is absent, warn and run
`npm install` before any frontend check. -/
def npmPrep (cfg : Config) (w : World) (st : RunState) : RunState :=
  if w.nodeModules then st
  else { st with
    diag := st.diag ++
      (if cfg.output = OutputFmt.text
       then ["warning: node_modules not found - installing dependencies..."] else []),
    trace := st.trace ++ [Event.npmInstall] }

/-- `run_frontend_checks` (lines 466-511): warn and return when the
frontend directory is missing; otherwise prepare dependencies, then run
the gated catalogue. -/
def run_frontend_checks (cfg : Config) (w : World) (st : RunState) :
    RunState × Option Nat :=
  if w.frontendDir then
    runBlks cfg w (frontendBlks cfg.level w) (npmPrep cfg w st)
  else
    ({ st with diag := st.diag ++
        (if cfg.output = OutputFmt.text then ["warning: frontend directory not found"] else []) },
     none)

/-- The `case "${TARGET}"` dispatch of `main` (lines 730-741). -/
def runChecksPhase (cfg : Config) (w : World) (st : RunState) :
    RunState × Option Nat :=
  match cfg.target with
  | Target.all => step (run_backend_checks cfg w st) (run_frontend_checks cfg w)
  | Target.backend => run_backend_checks cfg w st
  | Target.frontend => run_frontend_checks cfg w st

/-- `check_dependencies` (lines 242-258): python3 required for backend
targets, node and npm for frontend targets. -/
def depsMissing (t : Target) (w : World) : Prop :=
  ((t = Target.all ∨ t = Target.backend) ∧ w.python3 = false)
  ∨ ((t = Target.all ∨ t = Target.frontend) ∧ (w.node = false ∨ w.npm = false))

instance (t : Target) (w : World) : Decidable (depsMissing t w) := by
  unfold depsMissing; infer_instance

/-- Process exit code paired with the final orchestrator state. -/
structure Outcome where
  exitCode : Nat
  state : RunState
deriving DecidableEq

/-- The tail of `main` (lines 743-751): an inner `exit` code stands;
otherwise exit 1 when `TOTAL_ERRORS` is positive and 0 otherwise. -/
def finishRun (x : RunState × Option Nat) : Outcome :=
  match x with
  | (st1, some c) => { exitCode := c, state := st1 }
  | (st1, none) => { exitCode := if st1.totalErrors > 0 then 1 else 0, state := st1 }

/-- `main` after successful argument parsing (lines 711-752): probe
dependencies (exit 3 when missing), run the selected check phases
(an inner `exit` short-circuits), render and write the report, then exit
by failure count. -/
def mainRun (cfg : Config) (w : World) : Outcome :=
  if depsMissing cfg.target w then { exitCode := 3, state := initState }
  else finishRun (step (runChecksPhase cfg w initState) (output_results cfg w))

/-- The raw option values before validation: the defaults layer (built-in
values possibly overridden by `CR_*` environment variables, lines 44-51)
onto which explicit flags are applied. -/
structure RawConfig where
  level : String
  output : String
  target : String
  failFast : Bool
  noColor : Bool
  verbose : Bool
  outputFile : Option String
deriving DecidableEq

/-- Built-in defaults with no environment overrides (lines 45-51). -/
def defaults0 : RawConfig :=
  { level := "standard", output := "text", target := "all",
    failFast := false, noColor := false, verbose := false, outputFile := none }

/-- How the `while`/`case` flag loop of `parse_args` ends (lines 183-223). -/
inductive ParseLoopResult
  | done (c : RawConfig)
  | help
  | unknown (tok : String)
  | missingArg (tok : String)
deriving DecidableEq

/-- The flag loop (lines 183-223): value flags consume the next token,
`-h`/`--help` prints usage and exits 0, anything else is an unknown
option (usage printed, exit 2).  A value flag with no following token
trips `set -u` (modelled as `missingArg`). -/
def parseLoop : List String → RawConfig → ParseLoopResult
  | [], c => ParseLoopResult.done c
  | "-l" :: v :: rest, c => parseLoop rest { c with level := v }
  | "--level" :: v :: rest, c => parseLoop rest { c with level := v }
  | "-o" :: v :: rest, c => parseLoop rest { c with output := v }
  | "--output" :: v :: rest, c => parseLoop rest { c with output := v }
  | "-t" :: v :: rest, c => parseLoop rest { c with target := v }
  | "--target" :: v :: rest, c => parseLoop rest { c with target := v }
  | "-f" :: v :: rest, c => parseLoop rest { c with outputFile := some v }
  | "--file" :: v :: rest, c => parseLoop rest { c with outputFile := some v }
  | "--fail-fast" :: rest, c => parseLoop rest { c with failFast := true }
  | "--no-color" :: rest, c => parseLoop rest { c with noColor := true }
  | "-v" :: rest, c => parseLoop rest { c with verbose := true }
  | "--verbose" :: rest, c => parseLoop rest { c with verbose := true }
  | "-h" :: _, _ => ParseLoopResult.help
  | "--help" :: _, _ => ParseLoopResult.help
  | ["-l"], _ => ParseLoopResult.missingArg "-l"
  | ["-o"], _ => ParseLoopResult.missingArg "-o"
  | ["-t"], _ => ParseLoopResult.missingArg "-t"
  | ["-f"], _ => ParseLoopResult.missingArg "-f"
  | tok :: _, _ => ParseLoopResult.unknown tok

/-- `case "${LEVEL}"` validation (lines 226-229). -/
def levelOf (s : String) : Option Level :=
  if s = "quick" then some Level.quick
  else if s = "standard" then some Level.standard
  else if s = "full" then some Level.full
  else none

/-- `case "${OUTPUT}"` validation (lines 231-234). -/
def outputOf (s : String) : Option OutputFmt :=
  if s = "text" then some OutputFmt.text
  else if s = "json" then some OutputFmt.json
  else if s = "junit" then some OutputFmt.junit
  else none

/-- `case "${TARGET}"` validation (lines 236-239). -/
def targetOf (s : String) : Option Target :=
  if s = "all" then some Target.all
  else if s = "backend" then some Target.backend
  else if s = "frontend" then some Target.frontend
  else none

/-- The three validation cases run in order, each printing only its own
error message (no usage text) and exiting 2 on an unrecognized value. -/
def validate (c : RawConfig) : Except String Config :=
  match levelOf c.level with
  | none => Except.error ("Invalid level: " ++ c.level)
  | some l =>
    match outputOf c.output with
    | none => Except.error ("Invalid output format: " ++ c.output)
    | some o =>
      match targetOf c.target with
      | none => Except.error ("Invalid target: " ++ c.target)
      | some t =>
        Except.ok { level := l, output := o, target := t,
                    failFast := c.failFast, noColor := c.noColor,
                    verbose := c.verbose, outputFile := c.outputFile }

/-- What a whole invocation produced: exit code, whether `show_help` ran,
stderr error messages, and the final orchestrator state (still
`initState` when the process died before any check). -/
structure ScriptOutcome where
  exitCode : Nat
  usagePrinted : Bool
  errMsgs : List String
  state : RunState
deriving DecidableEq

/-- The whole script: `parse_args` (flag loop, then validation), then
`main`'s check-running remainder. -/
def script (defaults : RawConfig) (args : List String) (w : World) :
    ScriptOutcome :=
  match parseLoop args defaults with
  | ParseLoopResult.help =>
    { exitCode := 0, usagePrinted := true, errMsgs := [], state := initState }
  | ParseLoopResult.unknown tok =>
    { exitCode := 2, usagePrinted := true,
      errMsgs := ["Unknown option: " ++ tok], state := initState }
  | ParseLoopResult.missingArg tok =>
    { exitCode := 1, usagePrinted := false,
      errMsgs := [tok ++ ": unbound variable"], state := initState }
  | ParseLoopResult.done raw =>
    match validate raw with
    | Except.error msg =>
      { exitCode := 2, usagePrinted := false, errMsgs := [msg], state := initState }
    | Except.ok cfg =>
      let out := mainRun cfg w
      { exitCode := out.exitCode, usagePrinted := false, errMsgs := [],
        state := out.state }

/-- The names of the checks `run_check` is invoked on, in invocation
order, for a level, target and tool environment: the gated slots of the
catalogues of the selected, existing sub-project directories. -/
def gatedNames (bs : List Blk) : List String :=
  (bs.filter (fun b => b.gate)).map (fun b => b.name)

def executedChecks (l : Level) (t : Target) (w : World) : List String :=
  (if (t = Target.all ∨ t = Target.backend) ∧ w.backendDir = true
   then gatedNames (backendBlks l w) else [])
  ++ (if (t = Target.all ∨ t = Target.frontend) ∧ w.frontendDir = true
      then gatedNames (frontendBlks l w) else [])

/-- The results appended when the checks `ns` run starting at check index
`k` (indices feed the duration clock). -/
def mkResults (w : World) (k : Nat) : List String → List CheckResult
  | [] => []
  | n :: ns => mkResult w k n :: mkResults w (k + 1) ns

/-- Only the subprocess spawns that are checks (not `npm install`). -/
def checkEvents (tr : List Event) : List Event :=
  tr.filter fun e => match e with
    | Event.runCmd _ => true
    | Event.npmInstall => false

/-- Which check names are invoked through a `run_check` call site whose
stderr is redirected to `/dev/null` (lines 485, 493, 501). -/
def nameRedirected (n : String) : Bool :=
  n == "frontend_eslint" || n == "frontend_typecheck" || n == "frontend_jest"

/-- `l` occurs as a contiguous leading segment of `d`. -/
def PrefixOf {α : Type} (l d : List α) : Prop := ∃ t, d = l ++ t

/-- `l` occurs as a contiguous segment of `d`. -/
def InfixOf {α : Type} (l d : List α) : Prop := ∃ s t, d = s ++ (l ++ t)

/-- Internal consistency of a run state with respect to the world: the
counters agree with the store, errexit has been switched on exactly when
some check ran, and captured output references are kept only for failed
checks and hold that check's combined output. -/
def WF (w : World) (st : RunState) : Prop :=
  st.checkCount = st.results.length
  ∧ st.totalErrors = (st.results.filter (fun r => decide (r.status = Status.failed))).length
  ∧ st.errexit = !st.results.isEmpty
  ∧ ∀ r ∈ st.results,
      (r.status = Status.failed → r.capturedOutput = some (w.checkOutput r.name))
      ∧ (r.status = Status.passed → r.capturedOutput = none)

/-- Every failed check recorded so far whose `run_check` call site does
not discard stderr has its first 50 captured lines somewhere on the
diagnostic stream. -/
def EmitInv (w : World) (st : RunState) : Prop :=
  ∀ r ∈ st.results, r.status = Status.failed → nameRedirected r.name = false →
    InfixOf ((w.checkOutput r.name).take 50) st.diag


/-! ### Concrete instances used to exercise the theorems -/

/-- A world where every probe fails, every run passes, and the clock is
flat; variants below override individual fields. -/
def w0 : World :=
  { backendDir := false, frontendDir := false, python3 := true, node := true,
    npm := true, black := false, isort := false, flake8 := false, mypy := false,
    pytest := false, testsDir := false, packageJson := false, lintScript := false,
    typeCheckScript := false, testScript := false, buildScript := false,
    nodeModules := true, checkExit := fun _ => 0, checkOutput := fun _ => [],
    rawDuration := fun _ => 0, writeOk := true }

def cfg1 : Config :=
  { level := Level.standard, output := OutputFmt.text, target := Target.all,
    failFast := false, noColor := true, verbose := false, outputFile := none }

def cfg2 : Config :=
  { level := Level.quick, output := OutputFmt.text, target := Target.backend,
    failFast := true, noColor := true, verbose := false, outputFile := none }

def w2w : World :=
  { w0 with backendDir := true, black := true, checkExit := fun _ => 1 }

def cfg3 : Config :=
  { level := Level.full, output := OutputFmt.text, target := Target.backend,
    failFast := false, noColor := true, verbose := false, outputFile := none }

def cfg4 : Config :=
  { level := Level.full, output := OutputFmt.text, target := Target.frontend,
    failFast := false, noColor := true, verbose := false, outputFile := none }

def w4w : World :=
  { w0 with
    frontendDir := true, packageJson := true, lintScript := true,
    testScript := true, buildScript := false }

def cfg5 : Config :=
  { level := Level.quick, output := OutputFmt.json, target := Target.backend,
    failFast := false, noColor := true, verbose := false, outputFile := none }

def w5w : World :=
  { w0 with backendDir := true, black := true }

def json5 : JsonReport :=
  { level := Level.quick, target := Target.backend, total := 1, passed := 1,
    failed := 0,
    checks := [{ name := "backend_black", status := Status.passed,
                 duration_ms := 0, output := "" }] }

def cfg6 : Config :=
  { level := Level.quick, output := OutputFmt.junit, target := Target.backend,
    failFast := false, noColor := true, verbose := false, outputFile := none }

def w6w : World :=
  { w0 with backendDir := true, black := true, checkExit := fun _ => 1 }

def junit6 : JunitReport :=
  { tests := 1, failures := 1, suiteTests := 1, suiteFailures := 1,
    cases := [{ name := "backend_black", timeMs := 0, failure := some "" }] }

def cfg8 : Config :=
  { level := Level.quick, output := OutputFmt.text, target := Target.backend,
    failFast := false, noColor := true, verbose := true, outputFile := none }

def cfg8j : Config :=
  { cfg8 with output := OutputFmt.json }

def w8 : World :=
  { w0 with
    backendDir := true, black := true, checkExit := fun _ => 1,
    checkOutput := fun _ => ["boom"] }

def cfg9 : Config :=
  { level := Level.standard, output := OutputFmt.text, target := Target.backend,
    failFast := false, noColor := true, verbose := false,
    outputFile := some "report.txt" }

def w9 : World :=
  { w0 with writeOk := false }

def cfg10 : Config :=
  { level := Level.quick, output := OutputFmt.text, target := Target.frontend,
    failFast := false, noColor := true, verbose := false, outputFile := none }

def w10 : World :=
  { w0 with frontendDir := true, nodeModules := false }

/-! ### Basic lemmas about the segment predicates -/

theorem prefixOf_rfl {α : Type} (l : List α) : PrefixOf l l := ⟨[], by simp⟩

theorem prefixOf_append {α : Type} (l t : List α) : PrefixOf l (l ++ t) := ⟨t, rfl⟩

theorem prefixOf_trans {α : Type} {a b c : List α}
    (h1 : PrefixOf a b) (h2 : PrefixOf b c) : PrefixOf a c := by
  obtain ⟨t1, rfl⟩ := h1
  obtain ⟨t2, rfl⟩ := h2
  exact ⟨t1 ++ t2, by simp⟩

theorem infixOf_mono {α : Type} {l d d' : List α}
    (h1 : InfixOf l d) (h2 : PrefixOf d d') : InfixOf l d' := by
  obtain ⟨s, t, rfl⟩ := h1
  obtain ⟨t2, rfl⟩ := h2
  exact ⟨s, t ++ t2, by simp⟩

theorem infixOf_of_append {α : Type} (s l t : List α) :
    InfixOf l (s ++ (l ++ t)) := ⟨s, t, rfl⟩

theorem not_infixOf_nil {α : Type} {l : List α} (hl : l ≠ []) :
    ¬ InfixOf l [] := by
  rintro ⟨s, t, h⟩
  have hlen := congrArg List.length h
  simp [List.length_append] at hlen
  exact hl (List.eq_nil_of_length_eq_zero (by omega))

theorem prefixOf_toSubset {α : Type} {p d : List α} (h : PrefixOf p d) :
    ∀ x ∈ p, x ∈ d := by
  obtain ⟨t, rfl⟩ := h
  intro x hx
  exact List.mem_append_left t hx

/-! ### Result-construction lemmas -/

theorem mkResult_name (w : World) (k : Nat) (n : String) :
    (mkResult w k n).name = n := by
  unfold mkResult; split <;> rfl

theorem mkResult_status_passed (w : World) (k : Nat) (n : String)
    (h : w.checkExit n = 0) : (mkResult w k n).status = Status.passed := by
  simp [mkResult, h]

theorem mkResult_status_failed (w : World) (k : Nat) (n : String)
    (h : w.checkExit n ≠ 0) : (mkResult w k n).status = Status.failed := by
  simp [mkResult, h]

theorem mkResult_captured (w : World) (k : Nat) (n : String) :
    ((mkResult w k n).status = Status.failed →
      (mkResult w k n).capturedOutput = some (w.checkOutput n))
    ∧ ((mkResult w k n).status = Status.passed →
      (mkResult w k n).capturedOutput = none) := by
  unfold mkResult; split <;> simp

theorem mkResults_append (w : World) (k : Nat) (a b : List String) :
    mkResults w k (a ++ b) = mkResults w k a ++ mkResults w (k + a.length) b := by
  induction a generalizing k with
  | nil => simp [mkResults]
  | cons n ns ih =>
    simp only [List.cons_append, mkResults, List.append_eq, List.length_cons, ih (k + 1)]
    have h : k + 1 + ns.length = k + (ns.length + 1) := by omega
    rw [h]

theorem mkResults_names (w : World) (k : Nat) (ns : List String) :
    (mkResults w k ns).map (fun r => r.name) = ns := by
  induction ns generalizing k with
  | nil => rfl
  | cons n ns ih => simp [mkResults, mkResult_name, ih]

theorem mkResults_length (w : World) (k : Nat) (ns : List String) :
    (mkResults w k ns).length = ns.length := by
  induction ns generalizing k with
  | nil => rfl
  | cons n ns ih => simp [mkResults, ih]

/-! ### Status dichotomy helpers -/

theorem status_cases (s : Status) : s = Status.passed ∨ s = Status.failed := by
  cases s <;> simp

theorem allPassed_iff_noFailed (rs : List CheckResult) :
    (∀ r ∈ rs, r.status = Status.passed)
    ↔ (rs.filter (fun r => decide (r.status = Status.failed))).length = 0 := by
  induction rs with
  | nil => simp
  | cons r rs ih =>
    rcases status_cases r.status with h | h <;>
      simp [List.filter_cons, h, ih]

theorem existsFailed_iff (rs : List CheckResult) :
    (∃ r ∈ rs, r.status = Status.failed)
    ↔ 0 < (rs.filter (fun r => decide (r.status = Status.failed))).length := by
  induction rs with
  | nil => simp
  | cons r rs ih =>
    rcases status_cases r.status with h | h <;>
      simp [List.filter_cons, h, ih]

theorem passed_add_failed (rs : List CheckResult) :
    (rs.filter (fun r => decide (r.status = Status.passed))).length
    + (rs.filter (fun r => decide (r.status = Status.failed))).length
    = rs.length := by
  induction rs with
  | nil => rfl
  | cons r rs ih =>
    rcases status_cases r.status with h | h <;>
      simp [List.filter_cons, h] <;> omega

/-! ### `applyCheck` projections -/

theorem applyCheck_results (cfg : Config) (w : World) (red : Bool) (name : String)
    (st : RunState) :
    (applyCheck cfg w red name st).results = st.results ++ [mkResult w st.checkCount name] :=
  rfl

theorem applyCheck_checkCount (cfg : Config) (w : World) (red : Bool) (name : String)
    (st : RunState) :
    (applyCheck cfg w red name st).checkCount = st.checkCount + 1 :=
  rfl

theorem applyCheck_totalErrors (cfg : Config) (w : World) (red : Bool) (name : String)
    (st : RunState) :
    (applyCheck cfg w red name st).totalErrors
      = st.totalErrors + (if w.checkExit name = 0 then 0 else 1) :=
  rfl

theorem applyCheck_errexit (cfg : Config) (w : World) (red : Bool) (name : String)
    (st : RunState) :
    (applyCheck cfg w red name st).errexit = true :=
  rfl

theorem applyCheck_trace (cfg : Config) (w : World) (red : Bool) (name : String)
    (st : RunState) :
    (applyCheck cfg w red name st).trace = st.trace ++ [Event.runCmd name] :=
  rfl

theorem applyCheck_rendered (cfg : Config) (w : World) (red : Bool) (name : String)
    (st : RunState) :
    (applyCheck cfg w red name st).rendered = st.rendered :=
  rfl

theorem applyCheck_diag (cfg : Config) (w : World) (red : Bool) (name : String)
    (st : RunState) :
    PrefixOf st.diag (applyCheck cfg w red name st).diag :=
  prefixOf_append _ _

/-- On a failed check with `verbose` set, text output and no stderr
redirection, the first 50 captured lines land on the diagnostic
stream. -/
theorem applyCheck_emits (cfg : Config) (w : World) (name : String)
    (st : RunState) (hf : w.checkExit name ≠ 0) (hv : cfg.verbose = true)
    (ht : cfg.output = OutputFmt.text) :
    InfixOf ((w.checkOutput name).take 50) (applyCheck cfg w false name st).diag := by
  refine ⟨st.diag ++ ["Running: " ++ name, "[FAIL] " ++ name], [], ?_⟩
  show st.diag ++ runCheckDiag cfg w false name = _
  simp [runCheckDiag, hv, ht, hf]

/-! ### `render` congruence and `output_results` projections -/

theorem render_proj (cfg : Config) {st st' : RunState}
    (h1 : st.results = st'.results) (h2 : st.checkCount = st'.checkCount)
    (h3 : st.totalErrors = st'.totalErrors) :
    render cfg st = render cfg st' := by
  unfold render
  rw [h1, h2, h3]

theorem output_results_results (cfg : Config) (w : World) (st : RunState) :
    (output_results cfg w st).1.results = st.results := by
  unfold output_results
  rcases cfg.outputFile with _ | f
  · rfl
  · split_ifs <;> rfl

theorem output_results_checkCount (cfg : Config) (w : World) (st : RunState) :
    (output_results cfg w st).1.checkCount = st.checkCount := by
  unfold output_results
  rcases cfg.outputFile with _ | f
  · rfl
  · split_ifs <;> rfl

theorem output_results_totalErrors (cfg : Config) (w : World) (st : RunState) :
    (output_results cfg w st).1.totalErrors = st.totalErrors := by
  unfold output_results
  rcases cfg.outputFile with _ | f
  · rfl
  · split_ifs <;> rfl

theorem output_results_errexit (cfg : Config) (w : World) (st : RunState) :
    (output_results cfg w st).1.errexit = st.errexit := by
  unfold output_results
  rcases cfg.outputFile with _ | f
  · rfl
  · split_ifs <;> rfl

theorem output_results_trace (cfg : Config) (w : World) (st : RunState) :
    (output_results cfg w st).1.trace = st.trace := by
  unfold output_results
  rcases cfg.outputFile with _ | f
  · rfl
  · split_ifs <;> rfl

theorem output_results_rendered (cfg : Config) (w : World) (st : RunState) :
    (output_results cfg w st).1.rendered = some (render cfg st) := by
  unfold output_results
  rcases cfg.outputFile with _ | f
  · rfl
  · split_ifs <;> rfl

theorem output_results_diag (cfg : Config) (w : World) (st : RunState) :
    PrefixOf st.diag (output_results cfg w st).1.diag := by
  unfold output_results
  rcases cfg.outputFile with _ | f
  · exact prefixOf_rfl _
  · split_ifs <;> first
      | exact prefixOf_rfl _
      | exact prefixOf_append _ _

theorem output_results_snd (cfg : Config) (w : World) (st : RunState) :
    (output_results cfg w st).2 = none ∨ (output_results cfg w st).2 = some 1 := by
  unfold output_results
  rcases cfg.outputFile with _ | f
  · exact Or.inl rfl
  · split_ifs <;> first
      | exact Or.inr rfl
      | exact Or.inl rfl

theorem output_results_snd_of_writeOk (cfg : Config) (w : World) (st : RunState)
    (hw : w.writeOk = true) :
    (output_results cfg w st).2 = none := by
  unfold output_results
  rcases cfg.outputFile with _ | f
  · rfl
  · split_ifs with h
    · rw [hw] at h
      simp at h
    all_goals rfl

/-- The rendered report equals the renderer applied to the returned
state, since rendering only reads the store and counters. -/
theorem output_results_rendered_self (cfg : Config) (w : World) (st : RunState) :
    (output_results cfg w st).1.rendered = some (render cfg (output_results cfg w st).1) := by
  rw [output_results_rendered]
  exact congrArg some (render_proj cfg
    (output_results_results cfg w st).symm
    (output_results_checkCount cfg w st).symm
    (output_results_totalErrors cfg w st).symm)

/-! ### `run_check` characterization -/

theorem run_check_noExit (cfg : Config) (w : World) (red : Bool) (name : String)
    (st : RunState) (h : w.checkExit name = 0 ∨ cfg.failFast = false) :
    run_check cfg w red name st = (applyCheck cfg w red name st, none) := by
  unfold run_check
  rcases h with h | h <;> simp [h]

theorem failFastExit_fst (x : RunState × Option Nat) :
    (failFastExit x).1 = x.1 := by
  rcases x with ⟨a, _ | c⟩ <;> rfl

theorem failFastExit_eq {x : RunState × Option Nat}
    (h : x.2 = none ∨ x.2 = some 1) : failFastExit x = (x.1, some 1) := by
  rcases x with ⟨a, c⟩
  simp only at h
  rcases h with rfl | rfl <;> rfl

theorem step_none {x : RunState × Option Nat}
    (g : RunState → RunState × Option Nat) (h : x.2 = none) :
    step x g = g x.1 := by
  rcases x with ⟨a, c⟩
  simp only at h
  subst h
  rfl

theorem step_some {x : RunState × Option Nat}
    (g : RunState → RunState × Option Nat) {c : Nat} (h : x.2 = some c) :
    step x g = x := by
  rcases x with ⟨a, c'⟩
  simp only at h
  subst h
  rfl

theorem step_pair_none (a : RunState)
    (g : RunState → RunState × Option Nat) : step (a, none) g = g a := rfl

theorem run_check_failFF (cfg : Config) (w : World) (red : Bool) (name : String)
    (st : RunState) (hf : w.checkExit name ≠ 0) (hff : cfg.failFast = true) :
    (run_check cfg w red name st).2 = some 1
    ∧ (run_check cfg w red name st).1.results
        = st.results ++ [mkResult w st.checkCount name]
    ∧ (run_check cfg w red name st).1.checkCount = st.checkCount + 1
    ∧ (run_check cfg w red name st).1.totalErrors = st.totalErrors + 1
    ∧ (run_check cfg w red name st).1.errexit = true
    ∧ (run_check cfg w red name st).1.trace = st.trace ++ [Event.runCmd name]
    ∧ (run_check cfg w red name st).1.rendered
        = some (render cfg (run_check cfg w red name st).1)
    ∧ PrefixOf st.diag (run_check cfg w red name st).1.diag := by
  have hx : run_check cfg w red name st
      = ((output_results cfg w (applyCheck cfg w red name st)).1, some 1) := by
    unfold run_check
    rw [if_pos ⟨hf, hff⟩,
      failFastExit_eq (output_results_snd cfg w (applyCheck cfg w red name st))]
  rw [hx]
  refine ⟨rfl, ?_, ?_, ?_, ?_, ?_, ?_, ?_⟩
  · show (output_results cfg w (applyCheck cfg w red name st)).1.results = _
    rw [output_results_results, applyCheck_results]
  · show (output_results cfg w (applyCheck cfg w red name st)).1.checkCount = _
    rw [output_results_checkCount, applyCheck_checkCount]
  · show (output_results cfg w (applyCheck cfg w red name st)).1.totalErrors = _
    rw [output_results_totalErrors, applyCheck_totalErrors]
    simp [hf]
  · show (output_results cfg w (applyCheck cfg w red name st)).1.errexit = _
    rw [output_results_errexit, applyCheck_errexit]
  · show (output_results cfg w (applyCheck cfg w red name st)).1.trace = _
    rw [output_results_trace, applyCheck_trace]
  · exact output_results_rendered_self cfg w (applyCheck cfg w red name st)
  · exact prefixOf_trans (applyCheck_diag cfg w red name st)
      (output_results_diag cfg w (applyCheck cfg w red name st))

/-! ### More segment and bookkeeping lemmas -/

theorem prefixOf_cons {α : Type} {p q : List α} (a : α) (h : PrefixOf p q) :
    PrefixOf (a :: p) (a :: q) := by
  obtain ⟨t, rfl⟩ := h
  exact ⟨t, rfl⟩

theorem prefixOf_append_right {α : Type} {p a : List α} (b : List α)
    (h : PrefixOf p a) : PrefixOf p (a ++ b) := by
  obtain ⟨t, rfl⟩ := h
  exact ⟨t ++ b, by simp⟩

theorem gatedNames_cons_true {b : Blk} {bs : List Blk} (h : b.gate = true) :
    gatedNames (b :: bs) = b.name :: gatedNames bs := by
  simp [gatedNames, List.filter_cons, h]

theorem gatedNames_cons_false {b : Blk} {bs : List Blk} (h : b.gate = false) :
    gatedNames (b :: bs) = gatedNames bs := by
  simp [gatedNames, List.filter_cons, h]

theorem checkEvents_append (a b : List Event) :
    checkEvents (a ++ b) = checkEvents a ++ checkEvents b := by
  simp [checkEvents, List.filter_append]

theorem checkEvents_npmInstall :
    checkEvents [Event.npmInstall] = [] := rfl

theorem checkEvents_runCmd (n : String) :
    checkEvents [Event.runCmd n] = [Event.runCmd n] := rfl

theorem mkResult_failed_iff (w : World) (k : Nat) (n : String) :
    (mkResult w k n).status = Status.failed ↔ w.checkExit n ≠ 0 := by
  unfold mkResult
  split_ifs with h <;> simp [h]

/-! ### Well-formedness preservation -/

theorem applyCheck_WF (cfg : Config) (w : World) (red : Bool) (name : String)
    (st : RunState) (h : WF w st) : WF w (applyCheck cfg w red name st) := by
  obtain ⟨h1, h2, h3, h4⟩ := h
  refine ⟨?_, ?_, ?_, ?_⟩
  · rw [applyCheck_checkCount, applyCheck_results]
    simp [h1]
  · rw [applyCheck_totalErrors, applyCheck_results, List.filter_append,
      List.length_append, h2]
    congr 1
    unfold mkResult
    split_ifs with he <;> simp [List.filter_cons]
  · rw [applyCheck_errexit, applyCheck_results]
    have he : (st.results ++ [mkResult w st.checkCount name]).isEmpty = false := by
      cases st.results <;> rfl
    rw [he]
    rfl
  · intro r hr
    rw [applyCheck_results] at hr
    rcases List.mem_append.mp hr with hr | hr
    · exact h4 r hr
    · have : r = mkResult w st.checkCount name := by simpa using hr
      subst this
      simp only [mkResult_name]
      exact mkResult_captured w st.checkCount name

theorem output_results_WF (cfg : Config) (w : World) (st : RunState)
    (h : WF w st) : WF w (output_results cfg w st).1 := by
  obtain ⟨h1, h2, h3, h4⟩ := h
  refine ⟨?_, ?_, ?_, ?_⟩
  · rw [output_results_checkCount, output_results_results]
    exact h1
  · rw [output_results_totalErrors, output_results_results]
    exact h2
  · rw [output_results_errexit, output_results_results]
    exact h3
  · intro r hr
    rw [output_results_results] at hr
    exact h4 r hr

theorem run_check_WF (cfg : Config) (w : World) (red : Bool) (name : String)
    (st : RunState) (h : WF w st) : WF w (run_check cfg w red name st).1 := by
  unfold run_check
  split_ifs with hc
  · rw [failFastExit_eq (output_results_snd cfg w (applyCheck cfg w red name st))]
    exact output_results_WF cfg w _ (applyCheck_WF cfg w red name st h)
  · exact applyCheck_WF cfg w red name st h

theorem runBlk_WF (cfg : Config) (w : World) (b : Blk) (st : RunState)
    (h : WF w st) : WF w (runBlk cfg w b st).1 := by
  unfold runBlk
  split_ifs with h1 h2
  · exact run_check_WF cfg w b.redirected b.name st h
  · exact h
  · exact h

theorem runBlks_cons (cfg : Config) (w : World) (b : Blk) (bs : List Blk)
    (st : RunState) :
    runBlks cfg w (b :: bs) st = step (runBlk cfg w b st) (runBlks cfg w bs) :=
  rfl

theorem runBlks_WF (cfg : Config) (w : World) (bs : List Blk) (st : RunState)
    (h : WF w st) : WF w (runBlks cfg w bs st).1 := by
  induction bs generalizing st with
  | nil => exact h
  | cons b bs ih =>
    rw [runBlks_cons]
    rcases hsnd : (runBlk cfg w b st).2 with _ | c
    · rw [step_none _ hsnd]
      exact ih _ (runBlk_WF cfg w b st h)
    · rw [step_some _ hsnd]
      exact runBlk_WF cfg w b st h

theorem initState_WF (w : World) : WF w initState := by
  refine ⟨rfl, rfl, rfl, ?_⟩
  intro r hr
  simp [initState] at hr

/-! ### `run_check` projections common to both branches -/

theorem noExit_cases {cfg : Config} {w : World} {name : String}
    (h : ¬(w.checkExit name ≠ 0 ∧ cfg.failFast = true)) :
    w.checkExit name = 0 ∨ cfg.failFast = false := by
  by_cases he : w.checkExit name = 0
  · exact Or.inl he
  · right
    rcases Bool.eq_false_or_eq_true cfg.failFast with hb | hb
    · exact absurd ⟨he, hb⟩ h
    · exact hb

theorem run_check_trace_eq (cfg : Config) (w : World) (red : Bool) (name : String)
    (st : RunState) :
    (run_check cfg w red name st).1.trace = st.trace ++ [Event.runCmd name] := by
  unfold run_check
  split_ifs with hc
  · rw [failFastExit_eq (output_results_snd cfg w (applyCheck cfg w red name st))]
    show (output_results cfg w (applyCheck cfg w red name st)).1.trace = _
    rw [output_results_trace, applyCheck_trace]
  · exact applyCheck_trace cfg w red name st

theorem run_check_diag (cfg : Config) (w : World) (red : Bool) (name : String)
    (st : RunState) :
    PrefixOf st.diag (run_check cfg w red name st).1.diag := by
  unfold run_check
  split_ifs with hc
  · rw [failFastExit_eq (output_results_snd cfg w (applyCheck cfg w red name st))]
    exact prefixOf_trans (applyCheck_diag cfg w red name st)
      (output_results_diag cfg w (applyCheck cfg w red name st))
  · exact applyCheck_diag cfg w red name st

theorem run_check_rendered_of_none (cfg : Config) (w : World) (red : Bool)
    (name : String) (st : RunState)
    (h : (run_check cfg w red name st).2 = none) :
    (run_check cfg w red name st).1.rendered = st.rendered := by
  unfold run_check at h ⊢
  split_ifs at h ⊢ with hc
  · rw [failFastExit_eq (output_results_snd cfg w (applyCheck cfg w red name st))] at h
    simp at h
  · exact applyCheck_rendered cfg w red name st

/-! ### `runBlk` facts -/

theorem runBlk_gate (cfg : Config) (w : World) {b : Blk} (st : RunState)
    (h : b.gate = true) :
    runBlk cfg w b st = run_check cfg w b.redirected b.name st := by
  unfold runBlk
  rw [h]
  simp

theorem runBlk_skip (cfg : Config) (w : World) {b : Blk} (st : RunState)
    (h : b.gate = false) :
    (runBlk cfg w b st).2 = none
    ∧ (runBlk cfg w b st).1.results = st.results
    ∧ (runBlk cfg w b st).1.checkCount = st.checkCount
    ∧ (runBlk cfg w b st).1.totalErrors = st.totalErrors
    ∧ (runBlk cfg w b st).1.errexit = st.errexit
    ∧ (runBlk cfg w b st).1.trace = st.trace
    ∧ (runBlk cfg w b st).1.rendered = st.rendered
    ∧ PrefixOf st.diag (runBlk cfg w b st).1.diag := by
  have hb : runBlk cfg w b st =
      (if b.warnOnSkip && decide (cfg.output = OutputFmt.text)
       then { st with diag := st.diag ++ ["warning: skipping " ++ b.name] }
       else st, none) := by
    unfold runBlk
    rw [h]
    rfl
  rw [hb]
  split_ifs
  · exact ⟨rfl, rfl, rfl, rfl, rfl, rfl, rfl, prefixOf_append _ _⟩
  · exact ⟨rfl, rfl, rfl, rfl, rfl, rfl, rfl, prefixOf_rfl _⟩

/-! ### `runBlks` characterizations -/

theorem runBlks_diag (cfg : Config) (w : World) (bs : List Blk) (st : RunState) :
    PrefixOf st.diag (runBlks cfg w bs st).1.diag := by
  induction bs generalizing st with
  | nil => exact prefixOf_rfl _
  | cons b bs ih =>
    rw [runBlks_cons]
    rcases hsnd : (runBlk cfg w b st).2 with _ | c
    · rw [step_none _ hsnd]
      have hd : PrefixOf st.diag (runBlk cfg w b st).1.diag := by
        by_cases hg : b.gate = true
        · rw [runBlk_gate cfg w st hg]
          exact run_check_diag cfg w b.redirected b.name st
        · exact (runBlk_skip cfg w st (by simpa using hg)).2.2.2.2.2.2.2
      exact prefixOf_trans hd (ih _)
    · rw [step_some _ hsnd]
      by_cases hg : b.gate = true
      · rw [runBlk_gate cfg w st hg]
        exact run_check_diag cfg w b.redirected b.name st
      · exact (runBlk_skip cfg w st (by simpa using hg)).2.2.2.2.2.2.2

theorem runBlks_trace (cfg : Config) (w : World) (bs : List Blk) (st : RunState) :
    PrefixOf st.trace (runBlks cfg w bs st).1.trace := by
  induction bs generalizing st with
  | nil => exact prefixOf_rfl _
  | cons b bs ih =>
    rw [runBlks_cons]
    have hd : PrefixOf st.trace (runBlk cfg w b st).1.trace := by
      by_cases hg : b.gate = true
      · rw [runBlk_gate cfg w st hg, run_check_trace_eq]
        exact prefixOf_append _ _
      · rw [(runBlk_skip cfg w st (by simpa using hg)).2.2.2.2.2.1]
        exact prefixOf_rfl _
    rcases hsnd : (runBlk cfg w b st).2 with _ | c
    · rw [step_none _ hsnd]
      exact prefixOf_trans hd (ih _)
    · rw [step_some _ hsnd]
      exact hd

/-- Without fail-fast, the slot sequence never exits early and appends
exactly one result per gated slot, in order. -/
theorem runBlks_run (cfg : Config) (w : World) (hff : cfg.failFast = false)
    (bs : List Blk) : ∀ st : RunState,
    (runBlks cfg w bs st).2 = none
    ∧ (runBlks cfg w bs st).1.results
        = st.results ++ mkResults w st.checkCount (gatedNames bs)
    ∧ (runBlks cfg w bs st).1.checkCount
        = st.checkCount + (gatedNames bs).length
    ∧ (runBlks cfg w bs st).1.rendered = st.rendered := by
  induction bs with
  | nil =>
    intro st
    exact ⟨rfl, by simp [runBlks, gatedNames, mkResults], by simp [runBlks, gatedNames], rfl⟩
  | cons b bs ih =>
    intro st
    rw [runBlks_cons]
    by_cases hg : b.gate = true
    · rw [runBlk_gate cfg w st hg,
        run_check_noExit cfg w b.redirected b.name st (Or.inr hff),
        step_pair_none]
      obtain ⟨i1, i2, i3, i4⟩ := ih (applyCheck cfg w b.redirected b.name st)
      refine ⟨i1, ?_, ?_, ?_⟩
      · rw [i2, applyCheck_results, applyCheck_checkCount,
          gatedNames_cons_true hg, mkResults, List.append_assoc]
        rfl
      · rw [i3, applyCheck_checkCount, gatedNames_cons_true hg]
        simp
        omega
      · rw [i4, applyCheck_rendered]
    · have hg' : b.gate = false := by simpa using hg
      obtain ⟨s1, s2, s3, s4, s5, s6, s7, s8⟩ := runBlk_skip cfg w st hg'
      rw [step_none _ s1]
      obtain ⟨i1, i2, i3, i4⟩ := ih (runBlk cfg w b st).1
      refine ⟨i1, ?_, ?_, ?_⟩
      · rw [i2, s2, s3, gatedNames_cons_false hg']
      · rw [i3, s3, gatedNames_cons_false hg']
      · rw [i4, s7]

/-- A slot list with no gated slot changes nothing but the diagnostics. -/
theorem runBlks_skipAll (cfg : Config) (w : World) (bs : List Blk)
    (h : gatedNames bs = []) : ∀ st : RunState,
    (runBlks cfg w bs st).2 = none
    ∧ (runBlks cfg w bs st).1.results = st.results
    ∧ (runBlks cfg w bs st).1.checkCount = st.checkCount
    ∧ (runBlks cfg w bs st).1.totalErrors = st.totalErrors
    ∧ (runBlks cfg w bs st).1.errexit = st.errexit
    ∧ (runBlks cfg w bs st).1.trace = st.trace
    ∧ (runBlks cfg w bs st).1.rendered = st.rendered := by
  induction bs with
  | nil => exact fun st => ⟨rfl, rfl, rfl, rfl, rfl, rfl, rfl⟩
  | cons b bs ih =>
    intro st
    have hg : b.gate = false := by
      rcases Bool.eq_false_or_eq_true b.gate with hg | hg
      · rw [gatedNames_cons_true hg] at h
        simp at h
      · exact hg
    rw [gatedNames_cons_false hg] at h
    rw [runBlks_cons]
    obtain ⟨s1, s2, s3, s4, s5, s6, s7, s8⟩ := runBlk_skip cfg w st hg
    rw [step_none _ s1]
    obtain ⟨i1, i2, i3, i4, i5, i6, i7⟩ := ih h (runBlk cfg w b st).1
    exact ⟨i1, by rw [i2, s2], by rw [i3, s3], by rw [i4, s4], by rw [i5, s5],
      by rw [i6, s6], by rw [i7, s7]⟩

/-- With fail-fast on, if the first gated check's command fails, the slot
sequence stores exactly that one failed result, renders the partial
store, and exits with code 1. -/
theorem runBlks_ff (cfg : Config) (w : World) (hff : cfg.failFast = true)
    (bs : List Blk) (c : String) (rest : List String)
    (hfail : w.checkExit c ≠ 0) : ∀ st : RunState,
    gatedNames bs = c :: rest →
    (runBlks cfg w bs st).2 = some 1
    ∧ (runBlks cfg w bs st).1.results
        = st.results ++ [mkResult w st.checkCount c]
    ∧ (runBlks cfg w bs st).1.checkCount = st.checkCount + 1
    ∧ (runBlks cfg w bs st).1.totalErrors = st.totalErrors + 1
    ∧ (runBlks cfg w bs st).1.trace = st.trace ++ [Event.runCmd c]
    ∧ (runBlks cfg w bs st).1.rendered
        = some (render cfg (runBlks cfg w bs st).1) := by
  induction bs with
  | nil =>
    intro st h
    simp [gatedNames] at h
  | cons b bs ih =>
    intro st h
    rw [runBlks_cons]
    by_cases hg : b.gate = true
    · rw [gatedNames_cons_true hg] at h
      have hbc : b.name = c := (List.cons.injEq _ _ _ _).mp h |>.1
      subst hbc
      obtain ⟨f1, f2, f3, f4, f5, f6, f7, f8⟩ :=
        run_check_failFF cfg w b.redirected b.name st hfail hff
      rw [runBlk_gate cfg w st hg, step_some _ f1]
      exact ⟨f1, f2, f3, f4, f6, f7⟩
    · have hg' : b.gate = false := by simpa using hg
      rw [gatedNames_cons_false hg'] at h
      obtain ⟨s1, s2, s3, s4, s5, s6, s7, s8⟩ := runBlk_skip cfg w st hg'
      rw [step_none _ s1]
      obtain ⟨i1, i2, i3, i4, i5, i6⟩ := ih (runBlk cfg w b st).1 h
      exact ⟨i1, by rw [i2, s2, s3], by rw [i3, s3], by rw [i4, s4],
        by rw [i5, s6], i6⟩

/-- In every case the results appended by a slot sequence are the results
of a leading segment of its gated names, the whole of it when no early
exit happened. -/
theorem runBlks_prefixRun (cfg : Config) (w : World) (bs : List Blk) :
    ∀ st : RunState, ∃ p : List String,
    PrefixOf p (gatedNames bs)
    ∧ (runBlks cfg w bs st).1.results = st.results ++ mkResults w st.checkCount p
    ∧ (runBlks cfg w bs st).1.checkCount = st.checkCount + p.length
    ∧ ((runBlks cfg w bs st).2 = none → p = gatedNames bs) := by
  induction bs with
  | nil =>
    intro st
    exact ⟨[], prefixOf_rfl _, by simp [runBlks, mkResults],
      by simp [runBlks], fun _ => rfl⟩
  | cons b bs ih =>
    intro st
    rw [runBlks_cons]
    by_cases hg : b.gate = true
    · by_cases hex : w.checkExit b.name ≠ 0 ∧ cfg.failFast = true
      · obtain ⟨f1, f2, f3, f4, f5, f6, f7, f8⟩ :=
          run_check_failFF cfg w b.redirected b.name st hex.1 hex.2
        rw [runBlk_gate cfg w st hg, step_some _ f1]
        refine ⟨[b.name], ?_, ?_, ?_, ?_⟩
        · rw [gatedNames_cons_true hg]
          exact ⟨gatedNames bs, rfl⟩
        · simpa [mkResults] using f2
        · simpa using f3
        · intro hnone
          rw [f1] at hnone
          simp at hnone
      · rw [runBlk_gate cfg w st hg,
          run_check_noExit cfg w b.redirected b.name st (noExit_cases hex),
          step_pair_none]
        obtain ⟨p, i1, i2, i3, i4⟩ := ih (applyCheck cfg w b.redirected b.name st)
        refine ⟨b.name :: p, ?_, ?_, ?_, ?_⟩
        · rw [gatedNames_cons_true hg]
          exact prefixOf_cons b.name i1
        · rw [i2, applyCheck_results, applyCheck_checkCount, mkResults,
            List.append_assoc]
          rfl
        · rw [i3, applyCheck_checkCount]
          simp
          omega
        · intro hnone
          rw [gatedNames_cons_true hg, i4 hnone]
    · have hg' : b.gate = false := by simpa using hg
      obtain ⟨s1, s2, s3, s4, s5, s6, s7, s8⟩ := runBlk_skip cfg w st hg'
      rw [step_none _ s1]
      obtain ⟨p, i1, i2, i3, i4⟩ := ih (runBlk cfg w b st).1
      refine ⟨p, ?_, ?_, ?_, ?_⟩
      · rw [gatedNames_cons_false hg']
        exact i1
      · rw [i2, s2, s3]
      · rw [i3, s3]
      · intro hnone
        rw [gatedNames_cons_false hg']
        exact i4 hnone

/-- An early exit out of a slot sequence carries exit code 1, a rendered
report of the partial store it returns, a strictly positive failure
counter and the errexit flag. -/
theorem runBlks_exit (cfg : Config) (w : World) (bs : List Blk) :
    ∀ (st : RunState) (c : Nat), (runBlks cfg w bs st).2 = some c →
    c = 1
    ∧ (runBlks cfg w bs st).1.rendered
        = some (render cfg (runBlks cfg w bs st).1)
    ∧ st.totalErrors < (runBlks cfg w bs st).1.totalErrors
    ∧ (runBlks cfg w bs st).1.errexit = true := by
  induction bs with
  | nil =>
    intro st c h
    simp [runBlks] at h
  | cons b bs ih =>
    intro st c h
    rw [runBlks_cons] at h ⊢
    by_cases hg : b.gate = true
    · rw [runBlk_gate cfg w st hg] at h ⊢
      by_cases hex : w.checkExit b.name ≠ 0 ∧ cfg.failFast = true
      · obtain ⟨f1, f2, f3, f4, f5, f6, f7, f8⟩ :=
          run_check_failFF cfg w b.redirected b.name st hex.1 hex.2
        rw [step_some _ f1] at h ⊢
        have hc1 : c = 1 := by
          rw [f1] at h
          exact (Option.some.inj h).symm
        exact ⟨hc1, f7, by omega, f5⟩
      · rw [run_check_noExit cfg w b.redirected b.name st (noExit_cases hex),
          step_pair_none] at h ⊢
        obtain ⟨i1, i2, i3, i4⟩ := ih (applyCheck cfg w b.redirected b.name st) c h
        refine ⟨i1, i2, ?_, i4⟩
        have ha := applyCheck_totalErrors cfg w b.redirected b.name st
        omega
    · have hg' : b.gate = false := by simpa using hg
      obtain ⟨s1, s2, s3, s4, s5, s6, s7, s8⟩ := runBlk_skip cfg w st hg'
      rw [step_none _ s1] at h ⊢
      obtain ⟨i1, i2, i3, i4⟩ := ih (runBlk cfg w b st).1 c h
      exact ⟨i1, i2, by omega, i4⟩


/-! ### Domain runner characterizations -/

theorem npmPrep_proj (cfg : Config) (w : World) (st : RunState) :
    (npmPrep cfg w st).results = st.results
    ∧ (npmPrep cfg w st).checkCount = st.checkCount
    ∧ (npmPrep cfg w st).totalErrors = st.totalErrors
    ∧ (npmPrep cfg w st).errexit = st.errexit
    ∧ (npmPrep cfg w st).rendered = st.rendered
    ∧ PrefixOf st.diag (npmPrep cfg w st).diag
    ∧ checkEvents (npmPrep cfg w st).trace = checkEvents st.trace := by
  unfold npmPrep
  split_ifs
  · exact ⟨rfl, rfl, rfl, rfl, rfl, prefixOf_rfl _, rfl⟩
  all_goals
    refine ⟨rfl, rfl, rfl, rfl, rfl, prefixOf_append _ _, ?_⟩
    show checkEvents (st.trace ++ [Event.npmInstall]) = checkEvents st.trace
    rw [checkEvents_append, checkEvents_npmInstall, List.append_nil]

theorem npmPrep_trace_of_missing (cfg : Config) (w : World) (st : RunState)
    (hn : w.nodeModules = false) :
    (npmPrep cfg w st).trace = st.trace ++ [Event.npmInstall] := by
  unfold npmPrep
  rw [if_neg (by simp [hn])]

theorem npmPrep_WF (cfg : Config) (w : World) (st : RunState) (h : WF w st) :
    WF w (npmPrep cfg w st) := by
  unfold npmPrep
  split_ifs <;> exact h

/-- `run_backend_checks` without fail-fast: appends one result per gated
backend slot when the backend directory exists, none otherwise. -/
theorem run_backend_run (cfg : Config) (w : World) (hff : cfg.failFast = false)
    (st : RunState) :
    (run_backend_checks cfg w st).2 = none
    ∧ (run_backend_checks cfg w st).1.results = st.results
        ++ mkResults w st.checkCount
          (if w.backendDir = true then gatedNames (backendBlks cfg.level w) else [])
    ∧ (run_backend_checks cfg w st).1.checkCount = st.checkCount
        + (if w.backendDir = true then gatedNames (backendBlks cfg.level w) else []).length
    ∧ (run_backend_checks cfg w st).1.rendered = st.rendered := by
  unfold run_backend_checks
  split_ifs with hd
  · exact runBlks_run cfg w hff (backendBlks cfg.level w) st
  all_goals exact ⟨rfl, by simp [mkResults], by simp, rfl⟩

theorem run_frontend_run (cfg : Config) (w : World) (hff : cfg.failFast = false)
    (st : RunState) :
    (run_frontend_checks cfg w st).2 = none
    ∧ (run_frontend_checks cfg w st).1.results = st.results
        ++ mkResults w st.checkCount
          (if w.frontendDir = true then gatedNames (frontendBlks cfg.level w) else [])
    ∧ (run_frontend_checks cfg w st).1.checkCount = st.checkCount
        + (if w.frontendDir = true then gatedNames (frontendBlks cfg.level w) else []).length
    ∧ (run_frontend_checks cfg w st).1.rendered = st.rendered := by
  unfold run_frontend_checks
  split_ifs with hd
  · obtain ⟨p1, p2, p3, p4, p5, p6, p7⟩ := npmPrep_proj cfg w st
    obtain ⟨i1, i2, i3, i4⟩ := runBlks_run cfg w hff (frontendBlks cfg.level w)
      (npmPrep cfg w st)
    exact ⟨i1, by rw [i2, p1, p2], by rw [i3, p2], by rw [i4, p5]⟩
  all_goals exact ⟨rfl, by simp [mkResults], by simp, rfl⟩

/-- A domain runner whose effective check list is empty only logs. -/
theorem run_backend_quiet (cfg : Config) (w : World) (st : RunState)
    (h : (if w.backendDir = true then gatedNames (backendBlks cfg.level w) else []) = []) :
    (run_backend_checks cfg w st).2 = none
    ∧ (run_backend_checks cfg w st).1.results = st.results
    ∧ (run_backend_checks cfg w st).1.checkCount = st.checkCount
    ∧ (run_backend_checks cfg w st).1.totalErrors = st.totalErrors
    ∧ (run_backend_checks cfg w st).1.errexit = st.errexit
    ∧ checkEvents (run_backend_checks cfg w st).1.trace = checkEvents st.trace
    ∧ (run_backend_checks cfg w st).1.rendered = st.rendered := by
  unfold run_backend_checks
  split_ifs with hd
  · rw [if_pos hd] at h
    obtain ⟨i1, i2, i3, i4, i5, i6, i7⟩ := runBlks_skipAll cfg w _ h st
    exact ⟨i1, i2, i3, i4, i5, by rw [i6], i7⟩
  all_goals exact ⟨rfl, rfl, rfl, rfl, rfl, rfl, rfl⟩

theorem run_frontend_ff (cfg : Config) (w : World) (hff : cfg.failFast = true)
    (c : String) (rest : List String) (hfail : w.checkExit c ≠ 0)
    (st : RunState)
    (h : (if w.frontendDir = true then gatedNames (frontendBlks cfg.level w) else [])
          = c :: rest) :
    (run_frontend_checks cfg w st).2 = some 1
    ∧ (run_frontend_checks cfg w st).1.results
        = st.results ++ [mkResult w st.checkCount c]
    ∧ checkEvents (run_frontend_checks cfg w st).1.trace
        = checkEvents st.trace ++ [Event.runCmd c]
    ∧ (run_frontend_checks cfg w st).1.rendered
        = some (render cfg (run_frontend_checks cfg w st).1) := by
  unfold run_frontend_checks
  split_ifs with hd
  · rw [if_pos hd] at h
    obtain ⟨p1, p2, p3, p4, p5, p6, p7⟩ := npmPrep_proj cfg w st
    obtain ⟨i1, i2, i3, i4, i5, i6⟩ := runBlks_ff cfg w hff _ c rest hfail
      (npmPrep cfg w st) h
    refine ⟨i1, by rw [i2, p1, p2], ?_, i6⟩
    rw [i5, checkEvents_append, p7, checkEvents_runCmd]
  all_goals
    rw [if_neg hd] at h
    simp at h

theorem run_backend_ff (cfg : Config) (w : World) (hff : cfg.failFast = true)
    (c : String) (rest : List String) (hfail : w.checkExit c ≠ 0)
    (st : RunState)
    (h : (if w.backendDir = true then gatedNames (backendBlks cfg.level w) else [])
          = c :: rest) :
    (run_backend_checks cfg w st).2 = some 1
    ∧ (run_backend_checks cfg w st).1.results
        = st.results ++ [mkResult w st.checkCount c]
    ∧ checkEvents (run_backend_checks cfg w st).1.trace
        = checkEvents st.trace ++ [Event.runCmd c]
    ∧ (run_backend_checks cfg w st).1.rendered
        = some (render cfg (run_backend_checks cfg w st).1) := by
  unfold run_backend_checks
  split_ifs with hd
  · rw [if_pos hd] at h
    obtain ⟨i1, i2, i3, i4, i5, i6⟩ := runBlks_ff cfg w hff _ c rest hfail st h
    refine ⟨i1, i2, ?_, i6⟩
    rw [i5, checkEvents_append, checkEvents_runCmd]
  all_goals
    rw [if_neg hd] at h
    simp at h

theorem run_backend_prefixRun (cfg : Config) (w : World) (st : RunState) :
    ∃ p : List String,
    PrefixOf p (if w.backendDir = true then gatedNames (backendBlks cfg.level w) else [])
    ∧ (run_backend_checks cfg w st).1.results
        = st.results ++ mkResults w st.checkCount p
    ∧ (run_backend_checks cfg w st).1.checkCount = st.checkCount + p.length
    ∧ ((run_backend_checks cfg w st).2 = none →
        p = (if w.backendDir = true then gatedNames (backendBlks cfg.level w) else [])) := by
  unfold run_backend_checks
  split_ifs with hd
  · exact runBlks_prefixRun cfg w (backendBlks cfg.level w) st
  all_goals exact ⟨[], prefixOf_rfl _, by simp [mkResults], by simp, fun _ => rfl⟩

theorem run_frontend_prefixRun (cfg : Config) (w : World) (st : RunState) :
    ∃ p : List String,
    PrefixOf p (if w.frontendDir = true then gatedNames (frontendBlks cfg.level w) else [])
    ∧ (run_frontend_checks cfg w st).1.results
        = st.results ++ mkResults w st.checkCount p
    ∧ (run_frontend_checks cfg w st).1.checkCount = st.checkCount + p.length
    ∧ ((run_frontend_checks cfg w st).2 = none →
        p = (if w.frontendDir = true then gatedNames (frontendBlks cfg.level w) else [])) := by
  unfold run_frontend_checks
  split_ifs with hd
  · obtain ⟨q1, q2, q3, q4, q5, q6, q7⟩ := npmPrep_proj cfg w st
    obtain ⟨p, i1, i2, i3, i4⟩ := runBlks_prefixRun cfg w (frontendBlks cfg.level w)
      (npmPrep cfg w st)
    exact ⟨p, i1, by rw [i2, q1, q2], by rw [i3, q2], i4⟩
  all_goals exact ⟨[], prefixOf_rfl _, by simp [mkResults], by simp, fun _ => rfl⟩

theorem run_backend_exit (cfg : Config) (w : World) (st : RunState) (c : Nat)
    (h : (run_backend_checks cfg w st).2 = some c) :
    c = 1
    ∧ (run_backend_checks cfg w st).1.rendered
        = some (render cfg (run_backend_checks cfg w st).1)
    ∧ st.totalErrors < (run_backend_checks cfg w st).1.totalErrors
    ∧ (run_backend_checks cfg w st).1.errexit = true := by
  unfold run_backend_checks at h ⊢
  split_ifs at h ⊢ with hd
  · exact runBlks_exit cfg w (backendBlks cfg.level w) st c h

theorem run_frontend_exit (cfg : Config) (w : World) (st : RunState) (c : Nat)
    (h : (run_frontend_checks cfg w st).2 = some c) :
    c = 1
    ∧ (run_frontend_checks cfg w st).1.rendered
        = some (render cfg (run_frontend_checks cfg w st).1)
    ∧ st.totalErrors < (run_frontend_checks cfg w st).1.totalErrors
    ∧ (run_frontend_checks cfg w st).1.errexit = true := by
  unfold run_frontend_checks at h ⊢
  split_ifs at h ⊢ with hd
  · obtain ⟨q1, q2, q3, q4, q5, q6, q7⟩ := npmPrep_proj cfg w st
    obtain ⟨i1, i2, i3, i4⟩ := runBlks_exit cfg w (frontendBlks cfg.level w)
      (npmPrep cfg w st) c h
    exact ⟨i1, i2, by rw [q3] at i3; exact i3, i4⟩

theorem run_backend_WF (cfg : Config) (w : World) (st : RunState) (h : WF w st) :
    WF w (run_backend_checks cfg w st).1 := by
  unfold run_backend_checks
  split_ifs with hd
  · exact runBlks_WF cfg w _ st h
  all_goals exact h

theorem run_frontend_WF (cfg : Config) (w : World) (st : RunState) (h : WF w st) :
    WF w (run_frontend_checks cfg w st).1 := by
  unfold run_frontend_checks
  split_ifs with hd
  · exact runBlks_WF cfg w _ _ (npmPrep_WF cfg w st h)
  all_goals exact h


/-! ### Phase characterizations -/

theorem prefixOf_append_left {α : Type} (a : List α) {p q : List α}
    (h : PrefixOf p q) : PrefixOf (a ++ p) (a ++ q) := by
  obtain ⟨t, rfl⟩ := h
  exact ⟨t, by simp⟩

theorem finishRun_some {x : RunState × Option Nat} {c : Nat} (h : x.2 = some c) :
    finishRun x = { exitCode := c, state := x.1 } := by
  rcases x with ⟨a, c'⟩
  simp only at h
  subst h
  rfl

theorem finishRun_none {x : RunState × Option Nat} (h : x.2 = none) :
    finishRun x
      = { exitCode := if x.1.totalErrors > 0 then 1 else 0, state := x.1 } := by
  rcases x with ⟨a, c'⟩
  simp only at h
  subst h
  rfl

theorem phase_eq_backend (cfg : Config) (w : World) (st : RunState)
    (h : cfg.target = Target.backend) :
    runChecksPhase cfg w st = run_backend_checks cfg w st := by
  unfold runChecksPhase
  rw [h]

theorem phase_eq_frontend (cfg : Config) (w : World) (st : RunState)
    (h : cfg.target = Target.frontend) :
    runChecksPhase cfg w st = run_frontend_checks cfg w st := by
  unfold runChecksPhase
  rw [h]

theorem phase_eq_all (cfg : Config) (w : World) (st : RunState)
    (h : cfg.target = Target.all) :
    runChecksPhase cfg w st
      = step (run_backend_checks cfg w st) (run_frontend_checks cfg w) := by
  unfold runChecksPhase
  rw [h]

theorem executedChecks_backend (l : Level) (w : World) :
    executedChecks l Target.backend w
      = (if w.backendDir = true then gatedNames (backendBlks l w) else []) := by
  unfold executedChecks
  rw [if_neg (by simp :
      ¬((Target.backend = Target.all ∨ Target.backend = Target.frontend)
        ∧ w.frontendDir = true)), List.append_nil]
  by_cases hd : w.backendDir = true
  · rw [if_pos ⟨Or.inr rfl, hd⟩, if_pos hd]
  · rw [if_neg (by simp [hd]), if_neg hd]

theorem executedChecks_frontend (l : Level) (w : World) :
    executedChecks l Target.frontend w
      = (if w.frontendDir = true then gatedNames (frontendBlks l w) else []) := by
  unfold executedChecks
  rw [if_neg (by simp :
      ¬((Target.frontend = Target.all ∨ Target.frontend = Target.backend)
        ∧ w.backendDir = true)), List.nil_append]
  by_cases hd : w.frontendDir = true
  · rw [if_pos ⟨Or.inr rfl, hd⟩, if_pos hd]
  · rw [if_neg (by simp [hd]), if_neg hd]

theorem executedChecks_all (l : Level) (w : World) :
    executedChecks l Target.all w
      = (if w.backendDir = true then gatedNames (backendBlks l w) else [])
        ++ (if w.frontendDir = true then gatedNames (frontendBlks l w) else []) := by
  unfold executedChecks
  congr 1
  · by_cases hd : w.backendDir = true
    · rw [if_pos ⟨Or.inl rfl, hd⟩, if_pos hd]
    · rw [if_neg (by simp [hd]), if_neg hd]
  · by_cases hd : w.frontendDir = true
    · rw [if_pos ⟨Or.inl rfl, hd⟩, if_pos hd]
    · rw [if_neg (by simp [hd]), if_neg hd]

theorem phase_run (cfg : Config) (w : World) (hff : cfg.failFast = false) :
    (runChecksPhase cfg w initState).2 = none
    ∧ (runChecksPhase cfg w initState).1.results
        = mkResults w 0 (executedChecks cfg.level cfg.target w)
    ∧ (runChecksPhase cfg w initState).1.checkCount
        = (executedChecks cfg.level cfg.target w).length
    ∧ (runChecksPhase cfg w initState).1.rendered = none := by
  cases htgt : cfg.target with
  | backend =>
    rw [phase_eq_backend cfg w initState htgt, executedChecks_backend]
    obtain ⟨i1, i2, i3, i4⟩ := run_backend_run cfg w hff initState
    exact ⟨i1, by simpa [initState] using i2, by simpa [initState] using i3,
      by simpa [initState] using i4⟩
  | frontend =>
    rw [phase_eq_frontend cfg w initState htgt, executedChecks_frontend]
    obtain ⟨i1, i2, i3, i4⟩ := run_frontend_run cfg w hff initState
    exact ⟨i1, by simpa [initState] using i2, by simpa [initState] using i3,
      by simpa [initState] using i4⟩
  | all =>
    rw [phase_eq_all cfg w initState htgt, executedChecks_all]
    obtain ⟨b1, b2, b3, b4⟩ := run_backend_run cfg w hff initState
    rw [step_none _ b1]
    obtain ⟨f1, f2, f3, f4⟩ := run_frontend_run cfg w hff
      (run_backend_checks cfg w initState).1
    refine ⟨f1, ?_, ?_, ?_⟩
    · rw [f2, b2, b3]
      simp [initState, mkResults_append]
    · rw [f3, b3]
      simp [initState]
    · rw [f4, b4]
      rfl

theorem phase_ff (cfg : Config) (w : World) (hff : cfg.failFast = true)
    (c : String) (rest : List String) (hfail : w.checkExit c ≠ 0)
    (hexec : executedChecks cfg.level cfg.target w = c :: rest) :
    (runChecksPhase cfg w initState).2 = some 1
    ∧ (runChecksPhase cfg w initState).1.results = [mkResult w 0 c]
    ∧ checkEvents (runChecksPhase cfg w initState).1.trace = [Event.runCmd c]
    ∧ (runChecksPhase cfg w initState).1.rendered
        = some (render cfg (runChecksPhase cfg w initState).1) := by
  cases htgt : cfg.target with
  | backend =>
    rw [htgt, executedChecks_backend] at hexec
    rw [phase_eq_backend cfg w initState htgt]
    obtain ⟨i1, i2, i3, i4⟩ := run_backend_ff cfg w hff c rest hfail initState hexec
    exact ⟨i1, by simpa [initState] using i2,
      by simpa [initState, checkEvents] using i3, i4⟩
  | frontend =>
    rw [htgt, executedChecks_frontend] at hexec
    rw [phase_eq_frontend cfg w initState htgt]
    obtain ⟨i1, i2, i3, i4⟩ := run_frontend_ff cfg w hff c rest hfail initState hexec
    exact ⟨i1, by simpa [initState] using i2,
      by simpa [initState, checkEvents] using i3, i4⟩
  | all =>
    rw [htgt, executedChecks_all] at hexec
    rw [phase_eq_all cfg w initState htgt]
    rcases hA : (if w.backendDir = true then gatedNames (backendBlks cfg.level w) else [])
      with _ | ⟨a0, arest⟩
    · rw [hA, List.nil_append] at hexec
      obtain ⟨q1, q2, q3, q4, q5, q6, q7⟩ := run_backend_quiet cfg w initState hA
      rw [step_none _ q1]
      obtain ⟨i1, i2, i3, i4⟩ := run_frontend_ff cfg w hff c rest hfail _ hexec
      refine ⟨i1, ?_, ?_, i4⟩
      · rw [i2, q2, q3]
        simp [initState]
      · rw [i3, q6]
        simp [initState, checkEvents]
    · rw [hA, List.cons_append] at hexec
      have ha0 : a0 = c := ((List.cons.injEq _ _ _ _).mp hexec).1
      rw [ha0] at hA
      obtain ⟨i1, i2, i3, i4⟩ := run_backend_ff cfg w hff c _ hfail initState hA
      rw [step_some _ i1]
      exact ⟨i1, by simpa [initState] using i2,
        by simpa [initState, checkEvents] using i3, i4⟩

theorem phase_prefixRun (cfg : Config) (w : World) :
    ∃ p : List String,
    PrefixOf p (executedChecks cfg.level cfg.target w)
    ∧ (runChecksPhase cfg w initState).1.results = mkResults w 0 p := by
  cases htgt : cfg.target with
  | backend =>
    rw [phase_eq_backend cfg w initState htgt, executedChecks_backend]
    obtain ⟨p, i1, i2, i3, i4⟩ := run_backend_prefixRun cfg w initState
    exact ⟨p, i1, by simpa [initState] using i2⟩
  | frontend =>
    rw [phase_eq_frontend cfg w initState htgt, executedChecks_frontend]
    obtain ⟨p, i1, i2, i3, i4⟩ := run_frontend_prefixRun cfg w initState
    exact ⟨p, i1, by simpa [initState] using i2⟩
  | all =>
    rw [phase_eq_all cfg w initState htgt, executedChecks_all]
    obtain ⟨pB, b1, b2, b3, b4⟩ := run_backend_prefixRun cfg w initState
    rcases hsnd : (run_backend_checks cfg w initState).2 with _ | cb
    · rw [step_none _ hsnd]
      have hpB := b4 hsnd
      obtain ⟨pF, f1, f2, f3, f4⟩ := run_frontend_prefixRun cfg w
        (run_backend_checks cfg w initState).1
      refine ⟨pB ++ pF, ?_, ?_⟩
      · rw [hpB]
        exact prefixOf_append_left _ f1
      · rw [f2, b2, b3]
        simp [initState, mkResults_append]
    · rw [step_some _ hsnd]
      exact ⟨pB, prefixOf_append_right _ b1, by simpa [initState] using b2⟩

theorem phase_exit (cfg : Config) (w : World) (c : Nat)
    (h : (runChecksPhase cfg w initState).2 = some c) :
    c = 1
    ∧ (runChecksPhase cfg w initState).1.rendered
        = some (render cfg (runChecksPhase cfg w initState).1)
    ∧ 0 < (runChecksPhase cfg w initState).1.totalErrors := by
  cases htgt : cfg.target with
  | backend =>
    rw [phase_eq_backend cfg w initState htgt] at h ⊢
    obtain ⟨i1, i2, i3, i4⟩ := run_backend_exit cfg w initState c h
    exact ⟨i1, i2, by simpa [initState] using i3⟩
  | frontend =>
    rw [phase_eq_frontend cfg w initState htgt] at h ⊢
    obtain ⟨i1, i2, i3, i4⟩ := run_frontend_exit cfg w initState c h
    exact ⟨i1, i2, by simpa [initState] using i3⟩
  | all =>
    rw [phase_eq_all cfg w initState htgt] at h ⊢
    rcases hsnd : (run_backend_checks cfg w initState).2 with _ | cb
    · rw [step_none _ hsnd] at h ⊢
      obtain ⟨i1, i2, i3, i4⟩ :=
        run_frontend_exit cfg w (run_backend_checks cfg w initState).1 c h
      exact ⟨i1, i2, by omega⟩
    · rw [step_some _ hsnd] at h ⊢
      obtain ⟨i1, i2, i3, i4⟩ := run_backend_exit cfg w initState cb hsnd
      have hc : c = cb := by
        rw [hsnd] at h
        exact (Option.some.inj h).symm
      exact ⟨hc.trans i1, i2, by simpa [initState] using i3⟩

theorem phase_WF (cfg : Config) (w : World) :
    WF w (runChecksPhase cfg w initState).1 := by
  cases htgt : cfg.target with
  | backend =>
    rw [phase_eq_backend cfg w initState htgt]
    exact run_backend_WF cfg w initState (initState_WF w)
  | frontend =>
    rw [phase_eq_frontend cfg w initState htgt]
    exact run_frontend_WF cfg w initState (initState_WF w)
  | all =>
    rw [phase_eq_all cfg w initState htgt]
    rcases hsnd : (run_backend_checks cfg w initState).2 with _ | cb
    · rw [step_none _ hsnd]
      exact run_frontend_WF cfg w _ (run_backend_WF cfg w initState (initState_WF w))
    · rw [step_some _ hsnd]
      exact run_backend_WF cfg w initState (initState_WF w)


/-! ### Diagnostic-emission invariant (verbose text mode) -/

theorem emitInv_extend {w : World} {st st' : RunState} (h : EmitInv w st)
    (hr : st'.results = st.results) (hd : PrefixOf st.diag st'.diag) :
    EmitInv w st' := by
  intro r hmem hf hnr
  rw [hr] at hmem
  exact infixOf_mono (h r hmem hf hnr) hd

theorem initState_emitInv (w : World) : EmitInv w initState := by
  intro r hmem hf hnr
  simp [initState] at hmem

theorem applyCheck_emitInv (cfg : Config) (w : World) (red : Bool)
    (name : String) (st : RunState) (hv : cfg.verbose = true)
    (ht : cfg.output = OutputFmt.text) (hred : red = nameRedirected name)
    (h : EmitInv w st) : EmitInv w (applyCheck cfg w red name st) := by
  intro r hmem hf hnr
  rw [applyCheck_results] at hmem
  rcases List.mem_append.mp hmem with hm | hm
  · exact infixOf_mono (h r hm hf hnr) (applyCheck_diag cfg w red name st)
  · have hr : r = mkResult w st.checkCount name := by simpa using hm
    subst hr
    rw [mkResult_name] at hnr ⊢
    have hfail : w.checkExit name ≠ 0 :=
      (mkResult_failed_iff w st.checkCount name).mp hf
    have hred0 : red = false := by rw [hred, hnr]
    subst hred0
    exact applyCheck_emits cfg w name st hfail hv ht

theorem output_results_emitInv (cfg : Config) (w : World) (st : RunState)
    (h : EmitInv w st) : EmitInv w (output_results cfg w st).1 :=
  emitInv_extend h (output_results_results cfg w st) (output_results_diag cfg w st)

theorem run_check_emitInv (cfg : Config) (w : World) (red : Bool) (name : String)
    (st : RunState) (hv : cfg.verbose = true) (ht : cfg.output = OutputFmt.text)
    (hred : red = nameRedirected name) (h : EmitInv w st) :
    EmitInv w (run_check cfg w red name st).1 := by
  unfold run_check
  split_ifs with hc
  · rw [failFastExit_eq (output_results_snd cfg w (applyCheck cfg w red name st))]
    exact output_results_emitInv cfg w _
      (applyCheck_emitInv cfg w red name st hv ht hred h)
  · exact applyCheck_emitInv cfg w red name st hv ht hred h

theorem runBlk_emitInv (cfg : Config) (w : World) (b : Blk) (st : RunState)
    (hv : cfg.verbose = true) (ht : cfg.output = OutputFmt.text)
    (hred : b.redirected = nameRedirected b.name) (h : EmitInv w st) :
    EmitInv w (runBlk cfg w b st).1 := by
  by_cases hg : b.gate = true
  · rw [runBlk_gate cfg w st hg]
    exact run_check_emitInv cfg w _ _ st hv ht hred h
  · obtain ⟨s1, s2, s3, s4, s5, s6, s7, s8⟩ := runBlk_skip cfg w st (by simpa using hg)
    exact emitInv_extend h s2 s8

theorem runBlks_emitInv (cfg : Config) (w : World) (bs : List Blk)
    (hv : cfg.verbose = true) (ht : cfg.output = OutputFmt.text)
    (hreds : ∀ b ∈ bs, b.redirected = nameRedirected b.name) :
    ∀ st : RunState, EmitInv w st → EmitInv w (runBlks cfg w bs st).1 := by
  induction bs with
  | nil => exact fun st h => h
  | cons b bs ih =>
    intro st h
    rw [runBlks_cons]
    have hb := runBlk_emitInv cfg w b st hv ht (hreds b (List.mem_cons_self _ _)) h
    rcases hsnd : (runBlk cfg w b st).2 with _ | c
    · rw [step_none _ hsnd]
      exact ih (fun b' hb' => hreds b' (List.mem_cons_of_mem _ hb')) _ hb
    · rw [step_some _ hsnd]
      exact hb

theorem backendBlks_red (l : Level) (w : World) :
    ∀ b ∈ backendBlks l w, b.redirected = nameRedirected b.name := by
  intro b hb
  cases l <;> simp [backendBlks] at hb <;>
    rcases hb with rfl | rfl | rfl | rfl | rfl <;> rfl

theorem frontendBlks_red (l : Level) (w : World) :
    ∀ b ∈ frontendBlks l w, b.redirected = nameRedirected b.name := by
  intro b hb
  cases l <;> simp [frontendBlks] at hb <;>
    rcases hb with rfl | rfl | rfl | rfl <;> rfl

theorem run_backend_emitInv (cfg : Config) (w : World) (st : RunState)
    (hv : cfg.verbose = true) (ht : cfg.output = OutputFmt.text)
    (h : EmitInv w st) : EmitInv w (run_backend_checks cfg w st).1 := by
  unfold run_backend_checks
  split_ifs with hd
  · exact runBlks_emitInv cfg w _ hv ht (backendBlks_red cfg.level w) st h
  all_goals exact emitInv_extend h rfl (prefixOf_append _ _)

theorem run_frontend_emitInv (cfg : Config) (w : World) (st : RunState)
    (hv : cfg.verbose = true) (ht : cfg.output = OutputFmt.text)
    (h : EmitInv w st) : EmitInv w (run_frontend_checks cfg w st).1 := by
  unfold run_frontend_checks
  split_ifs with hd
  · obtain ⟨q1, q2, q3, q4, q5, q6, q7⟩ := npmPrep_proj cfg w st
    exact runBlks_emitInv cfg w _ hv ht (frontendBlks_red cfg.level w) _
      (emitInv_extend h q1 q6)
  all_goals exact emitInv_extend h rfl (prefixOf_append _ _)

theorem phase_emitInv (cfg : Config) (w : World)
    (hv : cfg.verbose = true) (ht : cfg.output = OutputFmt.text) :
    EmitInv w (runChecksPhase cfg w initState).1 := by
  cases htgt : cfg.target with
  | backend =>
    rw [phase_eq_backend cfg w initState htgt]
    exact run_backend_emitInv cfg w initState hv ht (initState_emitInv w)
  | frontend =>
    rw [phase_eq_frontend cfg w initState htgt]
    exact run_frontend_emitInv cfg w initState hv ht (initState_emitInv w)
  | all =>
    rw [phase_eq_all cfg w initState htgt]
    rcases hsnd : (run_backend_checks cfg w initState).2 with _ | cb
    · rw [step_none _ hsnd]
      exact run_frontend_emitInv cfg w _ hv ht
        (run_backend_emitInv cfg w initState hv ht (initState_emitInv w))
    · rw [step_some _ hsnd]
      exact run_backend_emitInv cfg w initState hv ht (initState_emitInv w)

/-! ### `mainRun` entry lemmas -/

theorem mainRun_deps (cfg : Config) (w : World) (h : depsMissing cfg.target w) :
    mainRun cfg w = { exitCode := 3, state := initState } := by
  unfold mainRun
  rw [if_pos h]

theorem mainRun_ok (cfg : Config) (w : World) (h : ¬ depsMissing cfg.target w) :
    mainRun cfg w
      = finishRun (step (runChecksPhase cfg w initState) (output_results cfg w)) := by
  unfold mainRun
  rw [if_neg h]


theorem output_results_snd_noerrexit (cfg : Config) (w : World) (st : RunState)
    (he : st.errexit = false) :
    (output_results cfg w st).2 = none := by
  unfold output_results
  rcases cfg.outputFile with _ | f
  · rfl
  · split_ifs with hcond
    · obtain ⟨h1, h2⟩ := hcond
      rw [he] at h2
      exact absurd h2 (by simp)
    all_goals rfl

theorem output_results_abort (cfg : Config) (w : World) (st : RunState) (f : String)
    (hfile : cfg.outputFile = some f) (hw : w.writeOk = false)
    (he : st.errexit = true) :
    (output_results cfg w st).2 = some 1 := by
  unfold output_results
  rcases hof : cfg.outputFile with _ | f'
  · exact absurd (hof.symm.trans hfile) (by simp)
  · split_ifs with hcond
    · rfl
    · exact absurd ⟨hw, he⟩ hcond

theorem finishRun_state (x : RunState × Option Nat) : (finishRun x).state = x.1 := by
  rcases x with ⟨a, _ | c⟩ <;> rfl

theorem finishRun_none_exit {x : RunState × Option Nat} (h : x.2 = none) :
    (finishRun x).exitCode = (if x.1.totalErrors > 0 then 1 else 0) := by
  rw [finishRun_none h]

theorem finishRun_some_exit {x : RunState × Option Nat} {c : Nat} (h : x.2 = some c) :
    (finishRun x).exitCode = c := by
  rw [finishRun_some h]

theorem rendered_json_eq {cfg : Config} (hout : cfg.output = OutputFmt.json)
    (st : RunState) :
    render cfg st = Rendered.json (output_json cfg st.results st.checkCount) := by
  unfold render
  rw [hout]

theorem rendered_junit_eq {cfg : Config} (hout : cfg.output = OutputFmt.junit)
    (st : RunState) :
    render cfg st
      = Rendered.junit (output_junit st.results st.checkCount st.totalErrors) := by
  unfold render
  rw [hout]

theorem output_json_equations (cfg : Config) (results : List CheckResult)
    (count : Nat) (hcount : count = results.length) :
    (output_json cfg results count).total
      = (output_json cfg results count).passed + (output_json cfg results count).failed
    ∧ (output_json cfg results count).total
      = (output_json cfg results count).checks.length := by
  refine ⟨?_, ?_⟩
  · show count = (results.filter (fun r => decide (r.status = Status.passed))).length
      + (results.filter (fun r => decide (r.status = Status.failed))).length
    rw [hcount]
    exact (passed_add_failed results).symm
  · show count = (results.map _).length
    rw [hcount, List.length_map]

theorem junitCaseOf_failure_failed {r : CheckResult} {ls : List String}
    (hf : r.status = Status.failed) (hc : r.capturedOutput = some ls) :
    (junitCaseOf r).failure
      = some (String.intercalate "\n" ((ls.take 50).map sedEscapeLine)) := by
  simp [junitCaseOf, hf, hc]

theorem junitCaseOf_failure_passed {r : CheckResult}
    (hp : r.status = Status.passed) (hc : r.capturedOutput = none) :
    (junitCaseOf r).failure = none := by
  simp [junitCaseOf, hp, hc]


/-! ### Sublist helpers for the level hierarchy -/

theorem sublist_append_both {α : Type} {a b c d : List α}
    (h1 : a.Sublist b) (h2 : c.Sublist d) : (a ++ c).Sublist (b ++ d) :=
  (h2.append_left a).trans (h1.append_right d)

theorem backendBlks_quick_standard (w : World) :
    (backendBlks Level.quick w).Sublist (backendBlks Level.standard w) := by
  show (([blackBlk w, isortBlk w] ++ []) ++ []).Sublist
    (([blackBlk w, isortBlk w] ++ [flake8Blk w, mypyBlk w]) ++ [])
  exact sublist_append_both
    (sublist_append_both (List.Sublist.refl _) (List.nil_sublist _))
    (List.nil_sublist _)

theorem backendBlks_standard_full (w : World) :
    (backendBlks Level.standard w).Sublist (backendBlks Level.full w) := by
  show (([blackBlk w, isortBlk w] ++ [flake8Blk w, mypyBlk w]) ++ []).Sublist
    (([blackBlk w, isortBlk w] ++ [flake8Blk w, mypyBlk w]) ++ [pytestBlk w])
  exact sublist_append_both (List.Sublist.refl _) (List.nil_sublist _)

theorem frontendBlks_quick_standard (w : World) :
    (frontendBlks Level.quick w).Sublist (frontendBlks Level.standard w) := by
  show (([eslintBlk w] ++ []) ++ []).Sublist
    (([eslintBlk w] ++ [typecheckBlk w]) ++ [])
  exact sublist_append_both
    (sublist_append_both (List.Sublist.refl _) (List.nil_sublist _))
    (List.nil_sublist _)

theorem frontendBlks_standard_full (w : World) :
    (frontendBlks Level.standard w).Sublist (frontendBlks Level.full w) := by
  show (([eslintBlk w] ++ [typecheckBlk w]) ++ []).Sublist
    (([eslintBlk w] ++ [typecheckBlk w]) ++ [jestBlk w, buildBlk w])
  exact sublist_append_both (List.Sublist.refl _) (List.nil_sublist _)

theorem gatedNames_sublist {bs1 bs2 : List Blk} (h : bs1.Sublist bs2) :
    (gatedNames bs1).Sublist (gatedNames bs2) :=
  List.Sublist.map _ (List.Sublist.filter _ h)

theorem executedChecks_sublist (t : Target) (w : World) {l1 l2 : Level}
    (hb : (backendBlks l1 w).Sublist (backendBlks l2 w))
    (hf : (frontendBlks l1 w).Sublist (frontendBlks l2 w)) :
    (executedChecks l1 t w).Sublist (executedChecks l2 t w) := by
  unfold executedChecks
  refine sublist_append_both ?_ ?_ <;> split_ifs
  · exact gatedNames_sublist hb
  · exact List.Sublist.refl _
  · exact gatedNames_sublist hf
  · exact List.Sublist.refl _

/-! ### The claims -/

/-- Claim C1: with the target's runtime dependencies present and the
report write succeeding, the process exits 0 exactly when every recorded
check passed (vacuously so when no check ran), and exits 1 exactly when
some recorded check failed. -/
theorem claim_c1 (cfg : Config) (w : World)
    (hdeps : ¬ depsMissing cfg.target w) (hw : w.writeOk = true) :
    ((mainRun cfg w).exitCode = 0
      ↔ ∀ r ∈ (mainRun cfg w).state.results, r.status = Status.passed)
    ∧ ((mainRun cfg w).exitCode = 1
      ↔ ∃ r ∈ (mainRun cfg w).state.results, r.status = Status.failed) := by
  rw [mainRun_ok cfg w hdeps]
  rcases hsnd : (runChecksPhase cfg w initState).2 with _ | c
  · rw [step_none _ hsnd]
    have hor := output_results_snd_of_writeOk cfg w (runChecksPhase cfg w initState).1 hw
    rw [finishRun_none_exit hor, finishRun_state]
    obtain ⟨w1, w2, w3, w4⟩ :=
      output_results_WF cfg w (runChecksPhase cfg w initState).1 (phase_WF cfg w)
    by_cases hT :
      (output_results cfg w (runChecksPhase cfg w initState).1).1.totalErrors > 0
    · rw [if_pos hT]
      refine ⟨⟨fun h => absurd h one_ne_zero, fun hall => ?_⟩,
        ⟨fun _ => (existsFailed_iff _).mpr (by omega), fun _ => rfl⟩⟩
      rw [allPassed_iff_noFailed] at hall
      omega
    · rw [if_neg hT]
      refine ⟨⟨fun _ => ?_, fun _ => rfl⟩,
        ⟨fun h => absurd h zero_ne_one, fun hex => ?_⟩⟩
      · rw [allPassed_iff_noFailed]
        omega
      · rw [existsFailed_iff] at hex
        omega
  · rw [step_some _ hsnd]
    obtain ⟨hc1, hrend, hpos⟩ := phase_exit cfg w c hsnd
    subst hc1
    rw [finishRun_some_exit hsnd, finishRun_state]
    obtain ⟨w1, w2, w3, w4⟩ := phase_WF cfg w
    refine ⟨⟨fun h => absurd h one_ne_zero, fun hall => ?_⟩,
      ⟨fun _ => (existsFailed_iff _).mpr (by omega), fun _ => rfl⟩⟩
    rw [allPassed_iff_noFailed] at hall
    omega

theorem claim_c1_witness :
    ¬ depsMissing cfg1.target w0
    ∧ (((mainRun cfg1 w0).exitCode = 0
        ↔ ∀ r ∈ (mainRun cfg1 w0).state.results, r.status = Status.passed)
      ∧ ((mainRun cfg1 w0).exitCode = 1
        ↔ ∃ r ∈ (mainRun cfg1 w0).state.results, r.status = Status.failed)) :=
  ⟨by decide, claim_c1 cfg1 w0 (by decide) rfl⟩

/-- Claim C2: with fail-fast enabled and the first executed check
failing, the store holds exactly that one failed result, the renderer
was invoked on this partial store, the check-command trace holds exactly
one spawn, and the process exits 1 - whatever the level. -/
theorem claim_c2 (cfg : Config) (w : World) (c0 : String) (rest : List String)
    (hff : cfg.failFast = true)
    (hdeps : ¬ depsMissing cfg.target w)
    (hexec : executedChecks cfg.level cfg.target w = c0 :: rest)
    (hfail : w.checkExit c0 ≠ 0) :
    (mainRun cfg w).exitCode = 1
    ∧ (mainRun cfg w).state.results = [mkResult w 0 c0]
    ∧ (mkResult w 0 c0).status = Status.failed
    ∧ checkEvents (mainRun cfg w).state.trace = [Event.runCmd c0]
    ∧ (mainRun cfg w).state.rendered = some (render cfg (mainRun cfg w).state) := by
  obtain ⟨p1, p2, p3, p4⟩ := phase_ff cfg w hff c0 rest hfail hexec
  rw [mainRun_ok cfg w hdeps, step_some _ p1, finishRun_some_exit p1,
    finishRun_state]
  exact ⟨rfl, p2, mkResult_status_failed w 0 c0 hfail, p3, p4⟩

theorem claim_c2_witness :
    (mainRun cfg2 w2w).exitCode = 1
    ∧ (mainRun cfg2 w2w).state.results = [mkResult w2w 0 "backend_black"]
    ∧ (mkResult w2w 0 "backend_black").status = Status.failed
    ∧ checkEvents (mainRun cfg2 w2w).state.trace = [Event.runCmd "backend_black"]
    ∧ (mainRun cfg2 w2w).state.rendered
        = some (render cfg2 (mainRun cfg2 w2w).state) :=
  claim_c2 cfg2 w2w "backend_black" [] rfl (by decide) (by decide) (by decide)

/-- Claim C3: for a fixed target and tool availability the executed check
set grows monotonically with the level (`quick ⊆ standard ⊆ full`, even
as ordered sublists), and without fail-fast a run's recorded check names
are exactly that executed set. -/
theorem claim_c3 (w : World) (t : Target) :
    (executedChecks Level.quick t w).Sublist (executedChecks Level.standard t w)
    ∧ (executedChecks Level.standard t w).Sublist (executedChecks Level.full t w)
    ∧ ∀ cfg : Config, cfg.target = t → cfg.failFast = false →
        ¬ depsMissing t w →
        (mainRun cfg w).state.results.map (fun r => r.name)
          = executedChecks cfg.level t w := by
  refine ⟨executedChecks_sublist t w (backendBlks_quick_standard w)
      (frontendBlks_quick_standard w),
    executedChecks_sublist t w (backendBlks_standard_full w)
      (frontendBlks_standard_full w), ?_⟩
  intro cfg htgt hff hdeps
  obtain ⟨p1, p2, p3, p4⟩ := phase_run cfg w hff
  have hdeps' : ¬ depsMissing cfg.target w := by
    rw [htgt]
    exact hdeps
  rw [mainRun_ok cfg w hdeps', step_none _ p1, finishRun_state,
    output_results_results, p2, mkResults_names, htgt]

theorem claim_c3_witness :
    (executedChecks Level.quick Target.backend w2w).Sublist
      (executedChecks Level.standard Target.backend w2w)
    ∧ (mainRun cfg3 w2w).state.results.map (fun r => r.name)
        = executedChecks cfg3.level Target.backend w2w :=
  ⟨(claim_c3 w2w Target.backend).1,
   (claim_c3 w2w Target.backend).2.2 cfg3 rfl rfl (by decide)⟩


/-- Claim C4: a check that was not gated in (tool missing, level not
selected, or package script absent) leaves no trace in the result store:
no entry bears its name, every stored entry is `passed` or `failed`
(there is no third status), and the failure counter counts exactly the
stored failed entries - so a skipped check is never counted as failed. -/
theorem claim_c4 (cfg : Config) (w : World) (name : String)
    (h : name ∉ executedChecks cfg.level cfg.target w) :
    name ∉ (mainRun cfg w).state.results.map (fun r => r.name)
    ∧ (∀ r ∈ (mainRun cfg w).state.results,
        r.status = Status.passed ∨ r.status = Status.failed)
    ∧ (mainRun cfg w).state.totalErrors
        = ((mainRun cfg w).state.results.filter
            (fun r => decide (r.status = Status.failed))).length := by
  by_cases hd : depsMissing cfg.target w
  · rw [mainRun_deps cfg w hd]
    exact ⟨by simp [initState], by simp [initState], rfl⟩
  · rw [mainRun_ok cfg w hd]
    obtain ⟨p, hp, hres⟩ := phase_prefixRun cfg w
    rcases hsnd : (runChecksPhase cfg w initState).2 with _ | c
    · rw [step_none _ hsnd, finishRun_state]
      refine ⟨?_, fun r _ => status_cases r.status, ?_⟩
      · rw [output_results_results, hres, mkResults_names]
        intro hmem
        exact h (prefixOf_toSubset hp name hmem)
      · exact (output_results_WF cfg w (runChecksPhase cfg w initState).1
          (phase_WF cfg w)).2.1
    · rw [step_some _ hsnd, finishRun_state]
      refine ⟨?_, fun r _ => status_cases r.status, (phase_WF cfg w).2.1⟩
      rw [hres, mkResults_names]
      intro hmem
      exact h (prefixOf_toSubset hp name hmem)

theorem claim_c4_witness :
    "frontend_build" ∉ (mainRun cfg4 w4w).state.results.map (fun r => r.name)
    ∧ (∀ r ∈ (mainRun cfg4 w4w).state.results,
        r.status = Status.passed ∨ r.status = Status.failed)
    ∧ (mainRun cfg4 w4w).state.totalErrors
        = ((mainRun cfg4 w4w).state.results.filter
            (fun r => decide (r.status = Status.failed))).length :=
  claim_c4 cfg4 w4w "frontend_build" (by decide)

/-- Claim C5: whatever JSON report a run renders satisfies
`summary.total = summary.passed + summary.failed = length(checks)`. -/
theorem claim_c5 (cfg : Config) (w : World) (hout : cfg.output = OutputFmt.json)
    (j : JsonReport)
    (hj : (mainRun cfg w).state.rendered = some (Rendered.json j)) :
    j.total = j.passed + j.failed ∧ j.total = j.checks.length := by
  by_cases hd : depsMissing cfg.target w
  · rw [mainRun_deps cfg w hd] at hj
    exact absurd hj (by simp [initState])
  · rw [mainRun_ok cfg w hd] at hj
    rcases hsnd : (runChecksPhase cfg w initState).2 with _ | c
    · rw [step_none _ hsnd, finishRun_state, output_results_rendered,
        rendered_json_eq hout] at hj
      have hj' : j = output_json cfg (runChecksPhase cfg w initState).1.results
          (runChecksPhase cfg w initState).1.checkCount :=
        (Rendered.json.inj (Option.some.inj hj)).symm
      rw [hj']
      exact output_json_equations cfg _ _ (phase_WF cfg w).1
    · rw [step_some _ hsnd, finishRun_state] at hj
      obtain ⟨hc1, hrend, hpos⟩ := phase_exit cfg w c hsnd
      rw [hrend, rendered_json_eq hout] at hj
      have hj' : j = output_json cfg (runChecksPhase cfg w initState).1.results
          (runChecksPhase cfg w initState).1.checkCount :=
        (Rendered.json.inj (Option.some.inj hj)).symm
      rw [hj']
      exact output_json_equations cfg _ _ (phase_WF cfg w).1

theorem claim_c5_witness :
    (mainRun cfg5 w5w).state.rendered = some (Rendered.json json5)
    ∧ (json5.total = json5.passed + json5.failed
       ∧ json5.total = json5.checks.length) :=
  ⟨by decide, claim_c5 cfg5 w5w rfl json5 (by decide)⟩

/-- Claim C6: in every rendered JUnit report the testcases mirror the
store in order, a failed check's testcase nests a failure element whose
body is exactly the first 50 lines of that check's captured output with
the four characters entity-escaped, and a passed check's testcase nests
no failure element. -/
theorem claim_c6 (cfg : Config) (w : World) (hout : cfg.output = OutputFmt.junit)
    (x : JunitReport)
    (hx : (mainRun cfg w).state.rendered = some (Rendered.junit x)) :
    x.cases = (mainRun cfg w).state.results.map junitCaseOf
    ∧ ∀ r ∈ (mainRun cfg w).state.results,
        (r.status = Status.failed →
          (junitCaseOf r).failure
            = some (String.intercalate "\n"
                (((w.checkOutput r.name).take 50).map sedEscapeLine)))
        ∧ (r.status = Status.passed → (junitCaseOf r).failure = none) := by
  by_cases hd : depsMissing cfg.target w
  · rw [mainRun_deps cfg w hd] at hx
    exact absurd hx (by simp [initState])
  · rw [mainRun_ok cfg w hd] at hx ⊢
    rcases hsnd : (runChecksPhase cfg w initState).2 with _ | c
    · rw [step_none _ hsnd, finishRun_state, output_results_rendered,
        rendered_junit_eq hout] at hx
      have hx' : x = output_junit (runChecksPhase cfg w initState).1.results
          (runChecksPhase cfg w initState).1.checkCount
          (runChecksPhase cfg w initState).1.totalErrors :=
        (Rendered.junit.inj (Option.some.inj hx)).symm
      rw [step_none _ hsnd, finishRun_state, output_results_results, hx']
      obtain ⟨w1, w2, w3, w4⟩ := phase_WF cfg w
      refine ⟨rfl, fun r hmem => ⟨fun hf => ?_, fun hp => ?_⟩⟩
      · exact junitCaseOf_failure_failed hf ((w4 r hmem).1 hf)
      · exact junitCaseOf_failure_passed hp ((w4 r hmem).2 hp)
    · rw [step_some _ hsnd, finishRun_state] at hx ⊢
      obtain ⟨hc1, hrend, hpos⟩ := phase_exit cfg w c hsnd
      rw [hrend, rendered_junit_eq hout] at hx
      have hx' : x = output_junit (runChecksPhase cfg w initState).1.results
          (runChecksPhase cfg w initState).1.checkCount
          (runChecksPhase cfg w initState).1.totalErrors :=
        (Rendered.junit.inj (Option.some.inj hx)).symm
      rw [hx']
      obtain ⟨w1, w2, w3, w4⟩ := phase_WF cfg w
      refine ⟨rfl, fun r hmem => ⟨fun hf => ?_, fun hp => ?_⟩⟩
      · exact junitCaseOf_failure_failed hf ((w4 r hmem).1 hf)
      · exact junitCaseOf_failure_passed hp ((w4 r hmem).2 hp)

theorem claim_c6_witness :
    (mainRun cfg6 w6w).state.rendered = some (Rendered.junit junit6)
    ∧ (junit6.cases = (mainRun cfg6 w6w).state.results.map junitCaseOf
      ∧ ∀ r ∈ (mainRun cfg6 w6w).state.results,
          (r.status = Status.failed →
            (junitCaseOf r).failure
              = some (String.intercalate "\n"
                  (((w6w.checkOutput r.name).take 50).map sedEscapeLine)))
          ∧ (r.status = Status.passed → (junitCaseOf r).failure = none)) :=
  ⟨by decide, claim_c6 cfg6 w6w rfl junit6 (by decide)⟩


/-- Counterexample to claim C7 as stated: `--level nightly` does exit
with the configuration-error code 2, but the usage text is **not**
printed - `parse_args` prints only `Invalid level: nightly` (usage is
printed only for unknown flags, lines 217-221 vs 226-229). -/
theorem claim_c7_cex :
    (script defaults0 ["--level", "nightly"] w0).exitCode = 2
    ∧ (script defaults0 ["--level", "nightly"] w0).usagePrinted = false
    ∧ (script defaults0 ["--level", "nightly"] w0).state.results = [] := by
  refine ⟨rfl, rfl, rfl⟩

/-- Claim C7 (amended): an unrecognized level value makes the process
exit with code 2 before any check runs, after printing an
`Invalid level:` error message to stderr; the usage text is not
printed. -/
theorem claim_c7 (d : RawConfig) (w : World) (s : String)
    (h1 : s ≠ "quick") (h2 : s ≠ "standard") (h3 : s ≠ "full") :
    script d ["--level", s] w
      = { exitCode := 2, usagePrinted := false,
          errMsgs := ["Invalid level: " ++ s], state := initState } := by
  have hval : validate { d with level := s }
      = Except.error ("Invalid level: " ++ s) := by
    unfold validate levelOf
    simp [h1, h2, h3]
  show (match parseLoop ["--level", s] d with
    | ParseLoopResult.help =>
      ({ exitCode := 0, usagePrinted := true, errMsgs := [],
         state := initState } : ScriptOutcome)
    | ParseLoopResult.unknown tok =>
      { exitCode := 2, usagePrinted := true,
        errMsgs := ["Unknown option: " ++ tok], state := initState }
    | ParseLoopResult.missingArg tok =>
      { exitCode := 1, usagePrinted := false,
        errMsgs := [tok ++ ": unbound variable"], state := initState }
    | ParseLoopResult.done raw =>
      match validate raw with
      | Except.error msg =>
        { exitCode := 2, usagePrinted := false, errMsgs := [msg],
          state := initState }
      | Except.ok cfg =>
        let out := mainRun cfg w
        { exitCode := out.exitCode, usagePrinted := false, errMsgs := [],
          state := out.state }) = _
  have hloop : parseLoop ["--level", s] d
      = ParseLoopResult.done { d with level := s } := rfl
  rw [hloop]
  show (match validate { d with level := s } with
    | Except.error msg =>
      ({ exitCode := 2, usagePrinted := false, errMsgs := [msg],
         state := initState } : ScriptOutcome)
    | Except.ok cfg =>
      let out := mainRun cfg w
      { exitCode := out.exitCode, usagePrinted := false, errMsgs := [],
        state := out.state }) = _
  rw [hval]

theorem claim_c7_witness :
    script defaults0 ["--level", "nightly"] w0
      = { exitCode := 2, usagePrinted := false,
          errMsgs := ["Invalid level: " ++ "nightly"], state := initState } :=
  claim_c7 defaults0 w0 "nightly" (by decide) (by decide) (by decide)

/-- Counterexample to claim C8 as stated: with `verbose` on but
`output=json`, a failed check's captured head is **not** emitted - the
`head -50` at line 353 runs only under `OUTPUT == text`, so nothing
reaches the diagnostic stream, contradicting "irrespective of the
selected output format". -/
theorem claim_c8_cex :
    cfg8j.verbose = true
    ∧ (mainRun cfg8j w8).state.results
        = [{ name := "backend_black", status := Status.failed, durationMs := 0,
             capturedOutput := some ["boom"] }]
    ∧ ¬ InfixOf ((w8.checkOutput "backend_black").take 50)
        (mainRun cfg8j w8).state.diag := by
  refine ⟨rfl, by decide, ?_⟩
  have hdiag : (mainRun cfg8j w8).state.diag = [] := by decide
  rw [hdiag]
  exact not_infixOf_nil (by decide)

/-- Claim C8 (amended): with `verbose` enabled **and the text output
format selected**, every failed check whose `run_check` call site does
not redirect stderr to `/dev/null` (all backend checks and the frontend
build check; the frontend eslint/type-check/jest call sites at lines
485, 493 and 501 discard it) has up to its first 50 captured lines
emitted contiguously on the diagnostic stream. -/
theorem claim_c8 (cfg : Config) (w : World)
    (hv : cfg.verbose = true) (ht : cfg.output = OutputFmt.text) :
    ∀ r ∈ (mainRun cfg w).state.results, r.status = Status.failed →
      nameRedirected r.name = false →
      InfixOf ((w.checkOutput r.name).take 50) (mainRun cfg w).state.diag := by
  by_cases hd : depsMissing cfg.target w
  · rw [mainRun_deps cfg w hd]
    intro r hmem
    simp [initState] at hmem
  · rw [mainRun_ok cfg w hd]
    have hph := phase_emitInv cfg w hv ht
    rcases hsnd : (runChecksPhase cfg w initState).2 with _ | c
    · rw [step_none _ hsnd, finishRun_state]
      exact output_results_emitInv cfg w _ hph
    · rw [step_some _ hsnd, finishRun_state]
      exact hph

theorem claim_c8_witness :
    InfixOf ((w8.checkOutput "backend_black").take 50)
      (mainRun cfg8 w8).state.diag :=
  claim_c8 cfg8 w8 rfl rfl
    { name := "backend_black", status := Status.failed, durationMs := 0,
      capturedOutput := some ["boom"] }
    (by decide) rfl (by decide)

/-- Counterexample to claim C9 as stated: with an unwritable output file
but zero executed checks (backend directory absent), the write failure
is silently swallowed - the run exits 0, so the failure is not
"surfaced as a fatal error".  (errexit is only switched on by the first
`run_check`, so the failed `echo > file` at line 700 aborts nothing.) -/
theorem claim_c9_cex :
    w9.writeOk = false
    ∧ cfg9.outputFile = some "report.txt"
    ∧ (mainRun cfg9 w9).state.results = []
    ∧ (mainRun cfg9 w9).exitCode = 0 := by
  refine ⟨rfl, rfl, by decide, by decide⟩

/-- Claim C9 (amended): a failed report write never alters the recorded
check outcomes - the store still holds exactly the executed checks'
results.  The failure is surfaced only when at least one check executed,
in which case the errexit option (enabled by the first `run_check`)
aborts the process at the failed write with exit code 1; after zero
executed checks the failure is ignored and the process exits 0. -/
theorem claim_c9 (cfg : Config) (w : World) (f : String)
    (hdeps : ¬ depsMissing cfg.target w)
    (hfile : cfg.outputFile = some f)
    (hw : w.writeOk = false)
    (hff : cfg.failFast = false) :
    (mainRun cfg w).state.results
      = mkResults w 0 (executedChecks cfg.level cfg.target w)
    ∧ ((mainRun cfg w).state.results = [] → (mainRun cfg w).exitCode = 0)
    ∧ ((mainRun cfg w).state.results ≠ [] → (mainRun cfg w).exitCode = 1) := by
  obtain ⟨p1, p2, p3, p4⟩ := phase_run cfg w hff
  obtain ⟨w1, w2, w3, w4⟩ := phase_WF cfg w
  have hstate : (mainRun cfg w).state
      = (output_results cfg w (runChecksPhase cfg w initState).1).1 := by
    rw [mainRun_ok cfg w hdeps, step_none _ p1, finishRun_state]
  have hres : (mainRun cfg w).state.results
      = mkResults w 0 (executedChecks cfg.level cfg.target w) := by
    rw [hstate, output_results_results, p2]
  refine ⟨hres, ?_, ?_⟩
  · intro h0
    have hpres : (runChecksPhase cfg w initState).1.results = [] := by
      rw [hstate, output_results_results] at h0
      exact h0
    have he : (runChecksPhase cfg w initState).1.errexit = false := by
      rw [w3, hpres]
      rfl
    have hsnd2 := output_results_snd_noerrexit cfg w
      (runChecksPhase cfg w initState).1 he
    have hte : (output_results cfg w (runChecksPhase cfg w initState).1).1.totalErrors
        = 0 := by
      rw [output_results_totalErrors, w2, hpres]
      rfl
    rw [mainRun_ok cfg w hdeps, step_none _ p1, finishRun_none_exit hsnd2, hte]
    rfl
  · intro hne
    have hpres : (runChecksPhase cfg w initState).1.results ≠ [] := by
      rw [hstate, output_results_results] at hne
      exact hne
    have he : (runChecksPhase cfg w initState).1.errexit = true := by
      rcases hl : (runChecksPhase cfg w initState).1.results with _ | ⟨a, l⟩
      · exact absurd hl hpres
      · rw [w3, hl]
        rfl
    have habort := output_results_abort cfg w
      (runChecksPhase cfg w initState).1 f hfile hw he
    rw [mainRun_ok cfg w hdeps, step_none _ p1, finishRun_some_exit habort]

theorem claim_c9_witness :
    (mainRun cfg9 w9).state.results
      = mkResults w9 0 (executedChecks cfg9.level cfg9.target w9)
    ∧ ((mainRun cfg9 w9).state.results = [] → (mainRun cfg9 w9).exitCode = 0)
    ∧ ((mainRun cfg9 w9).state.results ≠ [] → (mainRun cfg9 w9).exitCode = 1) :=
  claim_c9 cfg9 w9 "report.txt" (by decide) rfl rfl rfl

/-- Claim C10: with the frontend target selected, the frontend directory
present and `node_modules` absent, the very first subprocess the run
spawns is `npm install` - before any check command - so a run can mutate
the checked project. -/
theorem claim_c10 (cfg : Config) (w : World)
    (htgt : cfg.target = Target.frontend)
    (hdeps : ¬ depsMissing cfg.target w)
    (hdir : w.frontendDir = true)
    (hnm : w.nodeModules = false) :
    ∃ rest : List Event,
      (mainRun cfg w).state.trace = Event.npmInstall :: rest := by
  have htr : ∃ rest, (runChecksPhase cfg w initState).1.trace
      = Event.npmInstall :: rest := by
    rw [phase_eq_frontend cfg w initState htgt]
    unfold run_frontend_checks
    rw [if_pos hdir]
    have hp := runBlks_trace cfg w (frontendBlks cfg.level w) (npmPrep cfg w initState)
    have hnp : (npmPrep cfg w initState).trace = [Event.npmInstall] := by
      rw [npmPrep_trace_of_missing cfg w initState hnm]
      rfl
    rw [hnp] at hp
    obtain ⟨t, ht⟩ := hp
    exact ⟨t, by rw [ht]; rfl⟩
  obtain ⟨rest, hr⟩ := htr
  rcases hsnd : (runChecksPhase cfg w initState).2 with _ | c
  · refine ⟨rest, ?_⟩
    rw [mainRun_ok cfg w hdeps, step_none _ hsnd, finishRun_state,
      output_results_trace, hr]
  · refine ⟨rest, ?_⟩
    rw [mainRun_ok cfg w hdeps, step_some _ hsnd, finishRun_state, hr]

theorem claim_c10_witness :
    ∃ rest : List Event,
      (mainRun cfg10 w10).state.trace = Event.npmInstall :: rest :=
  claim_c10 cfg10 w10 rfl (by decide) rfl rfl

end CodeReviewer
